import Mathlib

/-!
Shallow embedding of the seeyou-cup CUP-file codec (waypoint/task exchange
format for glider navigation): coordinate and unit parsers, column mapping,
waypoint/task parsing, and the writer.  Rust `f64` values are modelled as `ℚ`
(every numeric literal reached by these code paths is a finite decimal);
Rust byte strings are modelled as `List ℕ` of byte values, and Rust `String`
as Lean `String` together with an explicit UTF-8 encoding function.
Fallible Rust functions returning `Result<T, String>` become
`Except String T`; operations that can panic in Rust (slice indexing,
`unwrap`) are modelled with `Option`, where `none` stands for a panic.
-/

namespace SeeyouCup

instance {ε α : Type} [DecidableEq ε] [DecidableEq α] : DecidableEq (Except ε α) :=
  fun x y =>
    match x, y with
    | .ok a, .ok b => decidable_of_iff (a = b) ⟨fun h => h ▸ rfl, Except.ok.inj⟩
    | .error a, .error b => decidable_of_iff (a = b) ⟨fun h => h ▸ rfl, Except.error.inj⟩
    | .ok _, .error _ => isFalse (fun h => Except.noConfusion h)
    | .error _, .ok _ => isFalse (fun h => Except.noConfusion h)

/-- UTF-8 encoding of a single character as its byte values. -/
def charBytes (c : Char) : List ℕ :=
  let n := c.toNat
  if n < 0x80 then [n]
  else if n < 0x800 then [0xC0 + n / 64, 0x80 + n % 64]
  else if n < 0x10000 then
    [0xE0 + n / 4096, 0x80 + (n / 64) % 64, 0x80 + n % 64]
  else
    [0xF0 + n / 262144, 0x80 + (n / 4096) % 64, 0x80 + (n / 64) % 64, 0x80 + n % 64]

/-- UTF-8 byte sequence of a string (Rust `str::as_bytes`). -/
def strBytes (s : String) : List ℕ :=
  s.data.foldr (fun c acc => charBytes c ++ acc) []

/-- Byte-level test for an ASCII digit (Rust `u8::is_ascii_digit`). -/
def isDigitByte (b : ℕ) : Bool :=
  decide (48 ≤ b ∧ b ≤ 57)

/-- Value of a single ASCII digit byte. -/
def digitVal (b : ℕ) : ℕ := b - 48

/-- Value of a big-endian sequence of ASCII digit bytes. -/
def digitsVal (bs : List ℕ) : ℕ :=
  bs.foldl (fun a b => 10 * a + digitVal b) 0

/-- Parse of an unsigned Rust integer (`str::parse::<uN>`) from bytes:
an optional leading plus sign, then one or more digits, bounded by the
type's maximal value.  `none` models a parse error. -/
def parseUNat? (bound : ℕ) (bs : List ℕ) : Option ℕ :=
  let ds := if bs.head? = some 43 then bs.tail else bs
  if ds ≠ [] ∧ ds.all isDigitByte ∧ digitsVal ds ≤ bound then
    some (digitsVal ds)
  else none

/-- Parse of a Rust `f64` (`str::parse::<f64>`) from bytes, modelled over `ℚ`,
restricted to the finite-decimal grammar `sign? digits* (. digits*)?
((e|E) sign? digits+)?` with at least one mantissa digit (infinities, NaN and
hexadecimal forms are out of scope for this codec). -/
def parseDecimalBytes? (bs : List ℕ) : Option ℚ :=
  let sgn : ℚ × List ℕ :=
    if bs.head? = some 43 then (1, bs.tail)
    else if bs.head? = some 45 then (-1, bs.tail)
    else (1, bs)
  let intD := sgn.2.takeWhile isDigitByte
  let bs2 := sgn.2.dropWhile isDigitByte
  let fracPart : List ℕ × List ℕ :=
    if bs2.head? = some 46 then (bs2.tail.takeWhile isDigitByte, bs2.tail.dropWhile isDigitByte)
    else ([], bs2)
  let fracD := fracPart.1
  let bs3 := fracPart.2
  if intD = [] ∧ fracD = [] then none else
  let mant : ℚ := sgn.1 * ((digitsVal intD : ℚ) + (digitsVal fracD : ℚ) / ((10 ^ fracD.length : ℕ) : ℚ))
  match bs3 with
  | [] => some mant
  | e :: t =>
    if e = 101 ∨ e = 69 then
      let eneg : Bool × List ℕ :=
        if t.head? = some 43 then (false, t.tail)
        else if t.head? = some 45 then (true, t.tail)
        else (false, t)
      let expD := eneg.2.takeWhile isDigitByte
      if expD ≠ [] ∧ eneg.2.dropWhile isDigitByte = [] then
        let p : ℚ := ((10 ^ digitsVal expD : ℕ) : ℚ)
        some (if eneg.1 then mant / p else mant * p)
      else none
    else none

/-- Parse of a Rust `f64` from a string (via its UTF-8 bytes). -/
def parseDecimal? (s : String) : Option ℚ :=
  parseDecimalBytes? (strBytes s)

/-- Display of a non-negative rational with a finite decimal expansion,
as Rust's `f64` `Display` prints it (shortest form, no trailing zeros).
Rationals without a finite decimal expansion (which do not arise from the
decimal parsing paths modelled here) fall back to a `num/den` rendering. -/
def ratDisplayNonneg (q : ℚ) : String :=
  match (List.range 40).find? (fun k => (q * ((10 ^ k : ℕ) : ℚ)).den = 1) with
  | some k =>
    let n := (q * ((10 ^ k : ℕ) : ℚ)).num.toNat
    if k = 0 then toString n
    else toString (n / 10 ^ k) ++ "." ++
      (let frac := toString (n % 10 ^ k)
       String.mk (List.replicate (k - frac.length) '0') ++ frac)
  | none => toString q.num ++ "/" ++ toString q.den

/-- Display of a rational as Rust's `f64` `Display` prints it. -/
def ratDisplay (q : ℚ) : String :=
  if q < 0 then "-" ++ ratDisplayNonneg (-q) else ratDisplayNonneg q

/-- Marker for a UTF-8 continuation byte: string slicing at such a byte
position panics in Rust. -/
def isContinuationByte (b : ℕ) : Bool :=
  decide (128 ≤ b ∧ b < 192)

/-- Position `i` is a character boundary of the byte string `bs`
(Rust `str::is_char_boundary`). -/
def isCharBoundary (bs : List ℕ) (i : ℕ) : Bool :=
  i = 0 || (match bs.get? i with
    | none => decide (i = bs.length)
    | some b => !isContinuationByte b)

/-- Rust byte-slice `bs[a..b]`: `none` models the out-of-range panic. -/
def byteSlice? (bs : List ℕ) (a b : ℕ) : Option (List ℕ) :=
  if a ≤ b ∧ b ≤ bs.length then some ((bs.drop a).take (b - a)) else none

/-- Rust string slice `s[a..b]` on the UTF-8 bytes `bs`: `none` models the
panic on an out-of-range or non-character-boundary index. -/
def strSlice? (bs : List ℕ) (a b : ℕ) : Option (List ℕ) :=
  if a ≤ b ∧ b ≤ bs.length ∧ isCharBoundary bs a ∧ isCharBoundary bs b then
    some ((bs.drop a).take (b - a))
  else none

namespace Basics

/-- Embedding of `parse_latitude` from `src/parser/basics.rs`.  The outer
`Option` layer models panic-freedom: `none` would mean a Rust panic
(impossible, as proved below); `some (.error m)` is `Err(m)`;
`some (.ok v)` is `Ok(v)` with the `f64` value modelled as `ℚ`. -/
def parse_latitude (s : String) : Option (Except String ℚ) :=
  let bytes := strBytes s
  let n := bytes.length
  if n < 9 then
    some (.error ("Invalid latitude format: '" ++ s ++ "' (expected 9 characters, got "
      ++ toString n ++ ")"))
  else
    match bytes.get? (n - 1) with
    | none => none
    | some hemisphere =>
      match byteSlice? bytes 0 4, bytes.get? 4, byteSlice? bytes 5 (n - 1) with
      | some degMin, some sep, some fracs =>
        if ¬ (degMin.all isDigitByte) ∨ sep ≠ 46 ∨ ¬ (fracs.all isDigitByte)
            ∨ (hemisphere ≠ 78 ∧ hemisphere ≠ 83) then
          some (.error ("Invalid latitude format: '" ++ s ++ "' (unexpected character)"))
        else
          match strSlice? bytes 0 2, strSlice? bytes 2 (n - 1) with
          | some degS, some minS =>
            match parseUNat? 255 degS, parseDecimalBytes? minS with
            | some degrees, some minutes =>
              if ¬ (0 ≤ minutes ∧ minutes < 60) then
                some (.error ("Latitude minutes out of range: '" ++ ratDisplay minutes
                  ++ "' (must be between 0 and 60)"))
              else
                let dd : ℚ := (degrees : ℚ) + minutes / 60
                let dd := if hemisphere = 83 then -dd else dd
                if ¬ (-90 ≤ dd ∧ dd ≤ 90) then
                  some (.error ("Latitude out of range: '" ++ ratDisplay dd
                    ++ "' (must be between -90 and 90)"))
                else
                  some (.ok dd)
            | _, _ => none
          | _, _ => none
      | _, _, _ => none

/-- Embedding of `parse_longitude` from `src/parser/basics.rs`, with the same
panic/error conventions as `parse_latitude`. -/
def parse_longitude (s : String) : Option (Except String ℚ) :=
  let bytes := strBytes s
  let n := bytes.length
  if n < 10 then
    some (.error ("Invalid longitude format: '" ++ s ++ "' (expected 10 characters, got "
      ++ toString n ++ ")"))
  else
    match bytes.get? (n - 1) with
    | none => none
    | some hemisphere =>
      match byteSlice? bytes 0 5, bytes.get? 5, byteSlice? bytes 6 (n - 1) with
      | some degMin, some sep, some fracs =>
        if ¬ (degMin.all isDigitByte) ∨ sep ≠ 46 ∨ ¬ (fracs.all isDigitByte)
            ∨ (hemisphere ≠ 69 ∧ hemisphere ≠ 87) then
          some (.error ("Invalid longitude format: '" ++ s ++ "' (unexpected character)"))
        else
          match strSlice? bytes 0 3, strSlice? bytes 3 (n - 1) with
          | some degS, some minS =>
            match parseUNat? 255 degS, parseDecimalBytes? minS with
            | some degrees, some minutes =>
              if ¬ (0 ≤ minutes ∧ minutes < 60) then
                some (.error ("Longitude minutes out of range: '" ++ ratDisplay minutes
                  ++ "' (must be between 0 and 60)"))
              else
                let dd : ℚ := (degrees : ℚ) + minutes / 60
                let dd := if hemisphere = 87 then -dd else dd
                if ¬ (-180 ≤ dd ∧ dd ≤ 180) then
                  some (.error ("Longitude out of range: '" ++ ratDisplay dd
                    ++ "' (must be between -180 and 180)"))
                else
                  some (.ok dd)
            | _, _ => none
          | _, _ => none
      | _, _, _ => none

end Basics

/-- Rust `str::trim` (whitespace here restricted to the ASCII whitespace that
occurs in CUP files). -/
def trimStr (s : String) : String :=
  String.mk (((s.data.dropWhile Char.isWhitespace).reverse.dropWhile Char.isWhitespace).reverse)

/-- Rust `str::strip_suffix`: removes `suf` from the end of `s` if present. -/
def stripSuffix? (s suf : String) : Option String :=
  if suf.data.isSuffixOf s.data then
    some (String.mk (s.data.take (s.data.length - suf.data.length)))
  else none

/-- Rust `str::strip_prefix`: removes `pre` from the start of `s` if present. -/
def stripPre? (s pre : String) : Option String :=
  if pre.data.isPrefixOf s.data then some (String.mk (s.data.drop pre.data.length))
  else none

/-- Rust `str::trim_start_matches`: repeatedly removes `pre` from the start. -/
def trimStartMatches (s pre : String) : String :=
  if h : pre.data ≠ [] ∧ pre.data.isPrefixOf s.data then
    trimStartMatches (String.mk (s.data.drop pre.data.length)) pre
  else s
termination_by s.data.length
decreasing_by
  have hlen : 0 < pre.data.length := List.length_pos.2 h.1
  have hle : pre.data.length ≤ s.data.length :=
    (List.isPrefixOf_iff_prefix.1 h.2).length_le
  simp only [List.length_drop]
  omega

/-- Rust `str::split_once('=')`: splits at the first equals sign. -/
def splitOnceEq? (s : String) : Option (String × String) :=
  match s.data.findIdx? (fun c => c = '=') with
  | none => none
  | some i => some (String.mk (s.data.take i), String.mk (s.data.drop (i + 1)))

/-- ASCII lowercasing, modelling Rust `str::to_lowercase` on the ASCII
header names that occur in CUP files. -/
def lowercase (s : String) : String :=
  String.mk (s.data.map Char.toLower)

/-- Rust `str::eq_ignore_ascii_case` against a lowercase literal. -/
def eqIgnoreAsciiCase (s t : String) : Bool :=
  lowercase s = lowercase t

/-- Rust `char::is_alphabetic`, restricted to ASCII letters (the only
alphabetic characters relevant to unit suffixes). -/
def isAlphaChar (c : Char) : Bool := c.isAlpha

namespace Dim

/-- Elevation with unit, from `src/types/dimensions.rs` (`f64` payloads
modelled as `ℚ`). -/
inductive Elevation where
  | Feet (v : ℚ)
  | Meters (v : ℚ)
deriving DecidableEq

/-- Runway dimension with unit, from `src/types/dimensions.rs`. -/
inductive RunwayDimension where
  | NauticalMiles (v : ℚ)
  | StatuteMiles (v : ℚ)
  | Meters (v : ℚ)
deriving DecidableEq

/-- Distance with unit, from `src/types/dimensions.rs`. -/
inductive Distance where
  | Kilometers (v : ℚ)
  | NauticalMiles (v : ℚ)
  | StatuteMiles (v : ℚ)
  | Meters (v : ℚ)
deriving DecidableEq

/-- One suffix-matching step of the `dimension_enum!` `FromStr` expansion:
if `s` ends in `suf`, parse the rest as an `f64` and build the variant with
`mk`, reporting `Invalid <display_name>: '<s>'` on a bad number. -/
def suffixStep {α : Type} (displayName : String) (s : String) (suf : String)
    (mk : ℚ → α) (next : Unit → Except String α) : Except String α :=
  match stripSuffix? s suf with
  | some valueStr =>
    match parseDecimal? valueStr with
    | some v => .ok (mk v)
    | none => .error ("Invalid " ++ displayName ++ ": '" ++ s ++ "'")
  | none => next ()

/-- Shared tail of the `dimension_enum!` `FromStr` expansion: after no
declared suffix matched, an input containing an alphabetic character fails
with an invalid-unit error naming the substring from the first alphabetic
character on; otherwise the whole string parses as a bare number in meters. -/
def bareTail {α : Type} (displayName : String) (s : String) (meters : ℚ → α) :
    Except String α :=
  match s.data.findIdx? isAlphaChar with
  | some i => .error ("Invalid " ++ displayName ++ " unit: '" ++ String.mk (s.data.drop i) ++ "'")
  | none =>
    match parseDecimal? s with
    | some v => .ok (meters v)
    | none => .error ("Invalid " ++ displayName ++ ": '" ++ s ++ "'")

/-- Embedding of `FromStr for Elevation` (variants `Feet = "ft"`,
`Meters = "m"`, in declaration order) from `src/types/dimensions.rs`. -/
def Elevation.from_str (input : String) : Except String Elevation :=
  let s := trimStr input
  suffixStep "elevation" s "ft" Elevation.Feet (fun _ =>
    suffixStep "elevation" s "m" Elevation.Meters (fun _ =>
      bareTail "elevation" s Elevation.Meters))

/-- Embedding of `FromStr for RunwayDimension` (variants `nm`, `ml`, `m`)
from `src/types/dimensions.rs`. -/
def RunwayDimension.from_str (input : String) : Except String RunwayDimension :=
  let s := trimStr input
  suffixStep "runway dimension" s "nm" RunwayDimension.NauticalMiles (fun _ =>
    suffixStep "runway dimension" s "ml" RunwayDimension.StatuteMiles (fun _ =>
      suffixStep "runway dimension" s "m" RunwayDimension.Meters (fun _ =>
        bareTail "runway dimension" s RunwayDimension.Meters)))

/-- Embedding of `FromStr for Distance` (variants `km`, `nm`, `ml`, `m`)
from `src/types/dimensions.rs`. -/
def Distance.from_str (input : String) : Except String Distance :=
  let s := trimStr input
  suffixStep "distance" s "km" Distance.Kilometers (fun _ =>
    suffixStep "distance" s "nm" Distance.NauticalMiles (fun _ =>
      suffixStep "distance" s "ml" Distance.StatuteMiles (fun _ =>
        suffixStep "distance" s "m" Distance.Meters (fun _ =>
          bareTail "distance" s Distance.Meters))))

/-- Display of an `Elevation` (`write!(f, "{value}{suffix}")`). -/
def Elevation.display : Elevation → String
  | .Feet v => ratDisplay v ++ "ft"
  | .Meters v => ratDisplay v ++ "m"

/-- Display of a `RunwayDimension`. -/
def RunwayDimension.display : RunwayDimension → String
  | .NauticalMiles v => ratDisplay v ++ "nm"
  | .StatuteMiles v => ratDisplay v ++ "ml"
  | .Meters v => ratDisplay v ++ "m"

/-- Display of a `Distance`. -/
def Distance.display : Distance → String
  | .Kilometers v => ratDisplay v ++ "km"
  | .NauticalMiles v => ratDisplay v ++ "nm"
  | .StatuteMiles v => ratDisplay v ++ "ml"
  | .Meters v => ratDisplay v ++ "m"

end Dim

/-- Name-to-column-index mapping from `src/parser/column_map.rs`:
seven mandatory columns, seven optional ones. -/
structure ColumnMap where
  name : ℕ
  code : ℕ
  country : ℕ
  lat : ℕ
  lon : ℕ
  elev : ℕ
  style : ℕ
  rwdir : Option ℕ
  rwlen : Option ℕ
  rwwidth : Option ℕ
  freq : Option ℕ
  desc : Option ℕ
  userdata : Option ℕ
  pics : Option ℕ
deriving DecidableEq

/-- Mutable slot state of the header scan in `build_column_map`. -/
structure ColSlots where
  name : Option ℕ
  code : Option ℕ
  country : Option ℕ
  lat : Option ℕ
  lon : Option ℕ
  elev : Option ℕ
  style : Option ℕ
  rwdir : Option ℕ
  rwlen : Option ℕ
  rwwidth : Option ℕ
  freq : Option ℕ
  desc : Option ℕ
  userdata : Option ℕ
  pics : Option ℕ
deriving DecidableEq

/-- Initial (all-empty) slot state. -/
def ColSlots.init : ColSlots :=
  ⟨none, none, none, none, none, none, none, none, none, none, none, none, none, none⟩

/-- One iteration of the header loop in `build_column_map`: a case-insensitive
match on the header name stores the column index in the matching slot. -/
def colStep (st : ColSlots) (ih : ℕ × String) : ColSlots :=
  match lowercase ih.2 with
  | "name" => { st with name := some ih.1 }
  | "code" => { st with code := some ih.1 }
  | "country" => { st with country := some ih.1 }
  | "lat" => { st with lat := some ih.1 }
  | "lon" => { st with lon := some ih.1 }
  | "elev" => { st with elev := some ih.1 }
  | "style" => { st with style := some ih.1 }
  | "rwdir" => { st with rwdir := some ih.1 }
  | "rwlen" => { st with rwlen := some ih.1 }
  | "rwwidth" => { st with rwwidth := some ih.1 }
  | "freq" => { st with freq := some ih.1 }
  | "desc" => { st with desc := some ih.1 }
  | "userdata" => { st with userdata := some ih.1 }
  | "pics" => { st with pics := some ih.1 }
  | _ => st

/-- Rust `Option::ok_or` followed by `?` for a mandatory column. -/
def requireCol (o : Option ℕ) (c : String) : Except String ℕ :=
  match o with
  | some i => .ok i
  | none => .error ("Missing required column: " ++ c)

/-- Embedding of `build_column_map` from `src/parser/column_map.rs`: scan the
header row, then demand the seven mandatory columns in fixed report order. -/
def build_column_map (headers : List String) : Except String ColumnMap := do
  let st := headers.enum.foldl colStep ColSlots.init
  let name ← requireCol st.name "name"
  let code ← requireCol st.code "code"
  let country ← requireCol st.country "country"
  let lat ← requireCol st.lat "lat"
  let lon ← requireCol st.lon "lon"
  let elev ← requireCol st.elev "elev"
  let style ← requireCol st.style "style"
  return ⟨name, code, country, lat, lon, elev, style,
    st.rwdir, st.rwlen, st.rwwidth, st.freq, st.desc, st.userdata, st.pics⟩

/-- Waypoint style enumeration from `src/types/waypoint.rs`. -/
inductive WaypointStyle where
  | Unknown
  | Waypoint
  | GrassAirfield
  | Outlanding
  | GlidingAirfield
  | SolidAirfield
  | MountainPass
  | MountainTop
  | TransmitterMast
  | Vor
  | Ndb
  | CoolingTower
  | Dam
  | Tunnel
  | Bridge
  | PowerPlant
  | Castle
  | Intersection
  | Marker
  | ControlPoint
  | PgTakeOff
  | PgLandingZone
deriving DecidableEq

/-- Numeric wire value of a waypoint style (Rust `style as u8`). -/
def WaypointStyle.toNat : WaypointStyle → ℕ
  | .Unknown => 0
  | .Waypoint => 1
  | .GrassAirfield => 2
  | .Outlanding => 3
  | .GlidingAirfield => 4
  | .SolidAirfield => 5
  | .MountainPass => 6
  | .MountainTop => 7
  | .TransmitterMast => 8
  | .Vor => 9
  | .Ndb => 10
  | .CoolingTower => 11
  | .Dam => 12
  | .Tunnel => 13
  | .Bridge => 14
  | .PowerPlant => 15
  | .Castle => 16
  | .Intersection => 17
  | .Marker => 18
  | .ControlPoint => 19
  | .PgTakeOff => 20
  | .PgLandingZone => 21

/-- Waypoint record from `src/types/waypoint.rs` (`f64` as `ℚ`,
`u16` runway direction as a bounded `ℕ`). -/
structure Waypoint where
  name : String
  code : String
  country : String
  latitude : ℚ
  longitude : ℚ
  elevation : Dim.Elevation
  style : WaypointStyle
  runway_direction : Option ℕ
  runway_length : Option Dim.RunwayDimension
  runway_width : Option Dim.RunwayDimension
  frequency : String
  description : String
  userdata : String
  pictures : List String
deriving DecidableEq

/-- CSV record: the ordered list of string fields of one decoded row
(Rust `csv::StringRecord`). -/
abbrev Record := List String

/-- Rust `StringRecord::get(i)` — `none` when the column is absent. -/
def recGet? (r : Record) (i : ℕ) : Option String := r.get? i

/-- Rust `StringRecord::as_slice`: all fields concatenated without
delimiters. -/
def recConcat (r : Record) : String :=
  String.mk (r.foldr (fun f acc => f.data ++ acc) [])

namespace WaypointP

/-- Embedding of `parse_waypoint_style` from `src/parser/waypoint.rs`:
a total match sending every unknown text to `Unknown`. -/
def parse_waypoint_style (s : String) : WaypointStyle :=
  match s with
  | "1" => .Waypoint
  | "2" => .GrassAirfield
  | "3" => .Outlanding
  | "4" => .GlidingAirfield
  | "5" => .SolidAirfield
  | "6" => .MountainPass
  | "7" => .MountainTop
  | "8" => .TransmitterMast
  | "9" => .Vor
  | "10" => .Ndb
  | "11" => .CoolingTower
  | "12" => .Dam
  | "13" => .Tunnel
  | "14" => .Bridge
  | "15" => .PowerPlant
  | "16" => .Castle
  | "17" => .Intersection
  | "18" => .Marker
  | "19" => .ControlPoint
  | "20" => .PgTakeOff
  | "21" => .PgLandingZone
  | _ => .Unknown

/-- Embedding of `parse_runway_direction` from `src/parser/waypoint.rs`
(`str::parse::<u16>`). -/
def parse_runway_direction (s : String) : Except String ℕ :=
  match parseUNat? 65535 (strBytes s) with
  | some v => .ok v
  | none => .error ("Invalid runway direction: " ++ s)

/-- Embedding of `parse_pictures` from `src/parser/waypoint.rs`:
split on `;`, trim, drop empty segments. -/
def parse_pictures (s : String) : List String :=
  ((s.splitOn ";").map trimStr).filter (fun p => p ≠ "")

/-- Total projection of the coordinate parsers: the panic case (`none`,
proved unreachable by the totality theorem below) collapses to an error. -/
def runLat (s : String) : Except String ℚ :=
  (Basics.parse_latitude s).getD (.error "panic")

/-- Total projection of `parse_longitude`, as `runLat`. -/
def runLon (s : String) : Except String ℚ :=
  (Basics.parse_longitude s).getD (.error "panic")

/-- Embedding of `parse_waypoint` from `src/parser/waypoint.rs`: field
lookups through the column map (`unwrap_or_default` giving the empty
string), with the name, coordinate, elevation and optional runway fields
able to fail the record. -/
def parse_waypoint (cm : ColumnMap) (record : Record) : Except String Waypoint := do
  let name := (recGet? record cm.name).getD ""
  if name = "" then
    throw "Name field cannot be empty"
  let code := (recGet? record cm.code).getD ""
  let country := (recGet? record cm.country).getD ""
  let latitude ← runLat ((recGet? record cm.lat).getD "")
  let longitude ← runLon ((recGet? record cm.lon).getD "")
  let elevation ← Dim.Elevation.from_str ((recGet? record cm.elev).getD "")
  let style := parse_waypoint_style ((recGet? record cm.style).getD "")
  let rd := (cm.rwdir.bind (recGet? record)).filter (fun s => s ≠ "")
  let runway_direction ← match rd with
    | some s => (parse_runway_direction s).map some
    | none => pure none
  let rl := (cm.rwlen.bind (recGet? record)).filter (fun s => s ≠ "")
  let runway_length ← match rl with
    | some s => (Dim.RunwayDimension.from_str s).map some
    | none => pure none
  let rw := (cm.rwwidth.bind (recGet? record)).filter (fun s => s ≠ "")
  let runway_width ← match rw with
    | some s => (Dim.RunwayDimension.from_str s).map some
    | none => pure none
  let frequency := (cm.freq.bind (recGet? record)).getD ""
  let description := (cm.desc.bind (recGet? record)).getD ""
  let userdata := (cm.userdata.bind (recGet? record)).getD ""
  let pictures := ((cm.pics.bind (recGet? record)).map parse_pictures).getD []
  return ⟨name, code, country, latitude, longitude, elevation, style,
    runway_direction, runway_length, runway_width, frequency, description,
    userdata, pictures⟩

/-- Row-level diagnostic from `src/error.rs`: message plus 1-based source
line of the offending record. -/
structure ParseIssue where
  message : String
  line : Option ℕ
deriving DecidableEq

/-- Modelled from the spec: the warning-collecting waypoint-table loop of the
record codec.  The revision of `parse_waypoints` matching `CupFile::from_reader`
(which returns the parsed file together with a warning list) is not present
under `src/` — the copy in `src/parser/waypoint.rs` is a stale draft that
propagates row errors fatally and does not type-check against `src/lib.rs`
or `src/error.rs`.  Following §4.3/§7 of the spec: a record-level failure is
reported as a warning carrying the offending message and the 1-based source
line of the row, the record is skipped, and parsing of the remaining table
continues; row failures never fail the whole table.  Each input row is paired
with its 1-based source line. -/
def parse_waypoints_model (cm : ColumnMap) :
    List (ℕ × Record) → List Waypoint × List ParseIssue
  | [] => ([], [])
  | (ln, r) :: rest =>
    let tail := parse_waypoints_model cm rest
    match parse_waypoint cm r with
    | .ok w => (w :: tail.1, tail.2)
    | .error e => (tail.1, ⟨e, some ln⟩ :: tail.2)

end WaypointP

/-- Observation-zone direction style from `src/types/task.rs`. -/
inductive ObsZoneStyle where
  | Fixed
  | Symmetrical
  | ToNextPoint
  | ToPreviousPoint
  | ToStartPoint
deriving DecidableEq

/-- Embedding of `ObsZoneStyle::from_u8`. -/
def ObsZoneStyle.from_u8 (v : ℕ) : Option ObsZoneStyle :=
  match v with
  | 0 => some .Fixed
  | 1 => some .Symmetrical
  | 2 => some .ToNextPoint
  | 3 => some .ToPreviousPoint
  | 4 => some .ToStartPoint
  | _ => none

/-- Numeric wire value of an observation-zone style (Rust `style as u8`). -/
def ObsZoneStyle.toNat : ObsZoneStyle → ℕ
  | .Fixed => 0
  | .Symmetrical => 1
  | .ToNextPoint => 2
  | .ToPreviousPoint => 3
  | .ToStartPoint => 4

/-- Observation zone from `src/types/task.rs`. -/
structure ObservationZone where
  index : ℕ
  style : ObsZoneStyle
  r1 : Option Dim.Distance
  a1 : Option ℚ
  r2 : Option Dim.Distance
  a2 : Option ℚ
  a12 : Option ℚ
  line : Option Bool
deriving DecidableEq

/-- Task options from `src/types/task.rs`. -/
structure TaskOptions where
  no_start : Option String
  task_time : Option String
  wp_dis : Option Bool
  near_dis : Option Dim.Distance
  near_alt : Option Dim.Elevation
  min_dis : Option Bool
  random_order : Option Bool
  max_pts : Option ℕ
  before_pts : Option ℕ
  after_pts : Option ℕ
  bonus : Option ℚ
deriving DecidableEq

/-- The all-`None` `TaskOptions` value built at the top of
`parse_options_line`. -/
def TaskOptions.empty : TaskOptions :=
  ⟨none, none, none, none, none, none, none, none, none, none, none⟩

/-- Task from `src/types/task.rs`: description, waypoint-name references,
options, observation zones, inline points and alternate starts. -/
structure Task where
  description : Option String
  waypoint_names : List String
  options : Option TaskOptions
  observation_zones : List ObservationZone
  points : List (ℕ × Waypoint)
  multiple_starts : List String
deriving DecidableEq

namespace TaskP

/-- Embedding of `parse_task_line` from `src/parser/task.rs`: field 0 is the
optional description (empty → `None`), the remaining non-empty fields are the
waypoint-name references. -/
def parse_task_line (record : Record) : Except String Task :=
  if record = [] then .error "Empty task line"
  else
    let description :=
      match recGet? record 0 with
      | none => none
      | some s => if s = "" then none else some s
    let waypoint_names := (record.drop 1).filter (fun s => s ≠ "")
    .ok ⟨description, waypoint_names, none, [], [], []⟩

/-- One key=value update of `parse_options_line`'s accumulator. -/
def optionsStep (acc : Except String TaskOptions) (part : String) :
    Except String TaskOptions := do
  let options ← acc
  match splitOnceEq? part with
  | none => pure options
  | some (key, value) =>
    match key with
    | "NoStart" => pure { options with no_start := some value }
    | "TaskTime" => pure { options with task_time := some value }
    | "WpDis" => pure { options with wp_dis := some (eqIgnoreAsciiCase value "true") }
    | "NearDis" => do
      let d ← Dim.Distance.from_str value
      pure { options with near_dis := some d }
    | "NearAlt" => do
      let e ← Dim.Elevation.from_str value
      pure { options with near_alt := some e }
    | "MinDis" => pure { options with min_dis := some (eqIgnoreAsciiCase value "true") }
    | "RandomOrder" => pure { options with random_order := some (eqIgnoreAsciiCase value "true") }
    | "MaxPts" => pure { options with max_pts := parseUNat? (2 ^ 32 - 1) (strBytes value) }
    | "BeforePts" => pure { options with before_pts := parseUNat? (2 ^ 32 - 1) (strBytes value) }
    | "AfterPts" => pure { options with after_pts := parseUNat? (2 ^ 32 - 1) (strBytes value) }
    | "Bonus" => pure { options with bonus := parseDecimal? value }
    | _ => pure options

/-- Embedding of `parse_options_line` from `src/parser/task.rs`: fold the
key=value fields after the leading `Options` field into a sparse record;
only `NearDis`/`NearAlt` parse failures abort the line. -/
def parse_options_line (record : Record) : Except String TaskOptions :=
  (record.drop 1).foldl optionsStep (.ok TaskOptions.empty)

/-- Mutable accumulator of `parse_obszone_line`. -/
structure ObsZoneAcc where
  index : Option ℕ
  style : Option ObsZoneStyle
  r1 : Option Dim.Distance
  a1 : Option ℚ
  r2 : Option Dim.Distance
  a2 : Option ℚ
  a12 : Option ℚ
  line_val : Option Bool
deriving DecidableEq

/-- One key=value update of `parse_obszone_line`'s accumulator. -/
def obsZoneStep (acc : Except String ObsZoneAcc) (part : String) :
    Except String ObsZoneAcc := do
  let st ← acc
  match splitOnceEq? part with
  | none => pure st
  | some (key, value) =>
    match key with
    | "ObsZone" => pure { st with index := parseUNat? (2 ^ 32 - 1) (strBytes value) }
    | "Style" =>
      match parseUNat? 255 (strBytes value) with
      | some v => pure { st with style := ObsZoneStyle.from_u8 v }
      | none => pure st
    | "R1" => do
      let d ← Dim.Distance.from_str value
      pure { st with r1 := some d }
    | "A1" => pure { st with a1 := parseDecimal? value }
    | "R2" => do
      let d ← Dim.Distance.from_str value
      pure { st with r2 := some d }
    | "A2" => pure { st with a2 := parseDecimal? value }
    | "A12" => pure { st with a12 := parseDecimal? value }
    | "Line" => pure { st with line_val := some (value = "1" || eqIgnoreAsciiCase value "true") }
    | _ => pure st

/-- Embedding of `parse_obszone_line` from `src/parser/task.rs`: fold every
field (including field 0, whose key is `ObsZone`), then demand index and
style. -/
def parse_obszone_line (record : Record) : Except String ObservationZone := do
  let st ← record.foldl obsZoneStep
    (.ok ⟨none, none, none, none, none, none, none, none⟩)
  match st.index, st.style with
  | some index, some style =>
    pure ⟨index, style, st.r1, st.a1, st.r2, st.a2, st.a12, st.line_val⟩
  | none, _ => throw "Missing ObsZone index"
  | some _, none => throw "Missing ObsZone style"

/-- Embedding of `parse_starts_line` from `src/parser/task.rs`: strip the
`STARTS=` marker from field 0 only, trim every field, drop empty results.
The Rust function returns `Result` but never errors. -/
def parse_starts_line (record : Record) : Except String (List String) :=
  .ok ((record.enum.map (fun p =>
      if p.1 = 0 then trimStr ((stripPre? p.2 "STARTS=").getD p.2)
      else trimStr p.2)).filter (fun s => s ≠ ""))

/-- Embedding of `parse_inline_waypoint_line_with_index` from
`src/parser/task.rs`: parse the `Point=<index>` head field, then parse the
remaining fields as a waypoint record with the waypoint table's column map. -/
def parse_inline_waypoint_line_with_index (record : Record) (cm : ColumnMap) :
    Except String (ℕ × Waypoint) := do
  let pointIdxStr := trimStartMatches (record.headD "") "Point="
  match parseUNat? (2 ^ 64 - 1) (strBytes pointIdxStr) with
  | none => throw ("Invalid point index: " ++ pointIdxStr)
  | some point_index => do
    let waypoint ← WaypointP.parse_waypoint cm (record.drop 1)
    pure (point_index, waypoint)

/-- Classification of a record as an `Options` attachment: the byte slice of
the whole record (all fields concatenated) starts with the marker. -/
def isOptionsRec (r : Record) : Bool := (recConcat r).startsWith "Options"

/-- Classification as an `ObsZone=` attachment. -/
def isObsZoneRec (r : Record) : Bool := (recConcat r).startsWith "ObsZone="

/-- Classification as a `Point=` attachment. -/
def isPointRec (r : Record) : Bool := (recConcat r).startsWith "Point="

/-- Classification as a `STARTS=` attachment. -/
def isStartsRec (r : Record) : Bool := (recConcat r).startsWith "STARTS="

/-- A record carrying any of the four attachment markers. -/
def isMarkerRec (r : Record) : Bool :=
  isOptionsRec r || isObsZoneRec r || isPointRec r || isStartsRec r

/-- One attachment consumed by the lookahead loop of `parse_tasks`:
`Options` overwrites the options, `ObsZone=`/`Point=` append, `STARTS=`
replaces the alternate-start list.  The inline point index is truncated to
`u32` as by `point_index as u32`. -/
def attachStep (cm : ColumnMap) (task : Task) (r : Record) : Except String Task :=
  if isOptionsRec r then do
    let o ← parse_options_line r
    pure { task with options := some o }
  else if isObsZoneRec r then do
    let z ← parse_obszone_line r
    pure { task with observation_zones := task.observation_zones ++ [z] }
  else if isPointRec r then do
    let (i, w) ← parse_inline_waypoint_line_with_index r cm
    pure { task with points := task.points ++ [(i % 2 ^ 32, w)] }
  else do
    let ss ← parse_starts_line r
    pure { task with multiple_starts := ss }

/-- The inner lookahead loop of `parse_tasks`: consume marker records and
attach them to the current task until a non-marker record (or the end of the
section) is peeked. -/
def collectAtt (cm : ColumnMap) (task : Task) :
    List Record → Except String (Task × List Record)
  | [] => .ok (task, [])
  | r :: rest =>
    if isMarkerRec r then do
      let task2 ← attachStep cm task r
      collectAtt cm task2 rest
    else .ok (task, r :: rest)

/-- Fuelled outer loop of `parse_tasks`: skip orphaned marker records, open a
task on any other record, collect its attachments, repeat.  Each iteration
consumes at least one record, so fuel equal to the list length suffices. -/
def parseTasksGo (cm : ColumnMap) : ℕ → List Record → Except String (List Task)
  | 0, _ => .ok []
  | _ + 1, [] => .ok []
  | fuel + 1, r :: rest =>
    if isMarkerRec r then parseTasksGo cm fuel rest
    else do
      let task ← parse_task_line r
      let (task2, rest2) ← collectAtt cm task rest
      let tasks ← parseTasksGo cm fuel rest2
      pure (task2 :: tasks)

/-- Embedding of `parse_tasks` from `src/parser/task.rs`, over the list of
CSV records of the task section (after the separator line). -/
def parse_tasks (cm : ColumnMap) (records : List Record) : Except String (List Task) :=
  parseTasksGo cm records.length records

end TaskP

/-- Literal separator line between the waypoint table and the task section. -/
def TASK_SEPARATOR : String := "-----Related Tasks-----"

/-- Whole CUP file: ordered waypoints and ordered tasks (`src/lib.rs`). -/
structure CupFile where
  waypoints : List Waypoint
  tasks : List Task
deriving DecidableEq

namespace Csv

/-- Lexer state of the CSV reader model: at the start of a field, inside an
unquoted field, inside a quoted field, or just after a closing quote. -/
inductive Mode where
  | start
  | unq
  | quo
  | postq

/-- Character-level model of the `csv` crate reader (default delimiter `,`,
quote `"`, doubled-quote escaping, CR/LF/CRLF terminators, blank lines
skipped, lenient about data after a closing quote).  `field` accumulates the
current field's characters in reverse; `rec` the current record's fields;
`recs` the finished records. -/
def go : List Char → Mode → List Char → List String → List Record →
    Except String (List Record)
  | [], .start, _, rec, recs =>
    if rec = [] then .ok recs else .ok (recs ++ [rec ++ [""]])
  | [], .unq, field, rec, recs => .ok (recs ++ [rec ++ [String.mk field.reverse]])
  | [], .postq, field, rec, recs => .ok (recs ++ [rec ++ [String.mk field.reverse]])
  | [], .quo, _, _, _ => .error "CSV error: unterminated quoted field"
  | '"' :: cs, .start, _, rec, recs => go cs .quo [] rec recs
  | ',' :: cs, .start, _, rec, recs => go cs .start [] (rec ++ [""]) recs
  | '\r' :: '\n' :: cs, .start, _, rec, recs =>
    if rec = [] then go cs .start [] [] recs else go cs .start [] [] (recs ++ [rec ++ [""]])
  | '\r' :: cs, .start, _, rec, recs =>
    if rec = [] then go cs .start [] [] recs else go cs .start [] [] (recs ++ [rec ++ [""]])
  | '\n' :: cs, .start, _, rec, recs =>
    if rec = [] then go cs .start [] [] recs else go cs .start [] [] (recs ++ [rec ++ [""]])
  | c :: cs, .start, _, rec, recs => go cs .unq [c] rec recs
  | ',' :: cs, .unq, field, rec, recs =>
    go cs .start [] (rec ++ [String.mk field.reverse]) recs
  | '\r' :: '\n' :: cs, .unq, field, rec, recs =>
    go cs .start [] [] (recs ++ [rec ++ [String.mk field.reverse]])
  | '\r' :: cs, .unq, field, rec, recs =>
    go cs .start [] [] (recs ++ [rec ++ [String.mk field.reverse]])
  | '\n' :: cs, .unq, field, rec, recs =>
    go cs .start [] [] (recs ++ [rec ++ [String.mk field.reverse]])
  | c :: cs, .unq, field, rec, recs => go cs .unq (c :: field) rec recs
  | '"' :: '"' :: cs, .quo, field, rec, recs => go cs .quo ('"' :: field) rec recs
  | '"' :: cs, .quo, field, rec, recs => go cs .postq field rec recs
  | c :: cs, .quo, field, rec, recs => go cs .quo (c :: field) rec recs
  | ',' :: cs, .postq, field, rec, recs =>
    go cs .start [] (rec ++ [String.mk field.reverse]) recs
  | '\r' :: '\n' :: cs, .postq, field, rec, recs =>
    go cs .start [] [] (recs ++ [rec ++ [String.mk field.reverse]])
  | '\r' :: cs, .postq, field, rec, recs =>
    go cs .start [] [] (recs ++ [rec ++ [String.mk field.reverse]])
  | '\n' :: cs, .postq, field, rec, recs =>
    go cs .start [] [] (recs ++ [rec ++ [String.mk field.reverse]])
  | '"' :: cs, .postq, field, rec, recs => go cs .quo ('"' :: field) rec recs
  | c :: cs, .postq, field, rec, recs => go cs .unq (c :: field) rec recs

/-- CSV decoding of a whole text into records. -/
def parseRecords (s : String) : Except String (List Record) :=
  go s.data .start [] [] []

/-- Quoting requirement of the `csv` crate writer's default
`QuoteStyle::Necessary`. -/
def quoteNeeded (f : String) : Bool :=
  f.data.any (fun c => c = ',' ∨ c = '"' ∨ c = '\n' ∨ c = '\r')

/-- Field as emitted by the `csv` crate writer: wrapped in double quotes with
inner quotes doubled when necessary. -/
def escapeField (f : String) : String :=
  if quoteNeeded f then
    "\"" ++ String.mk (f.data.foldr
      (fun c acc => if c = '"' then '"' :: '"' :: acc else c :: acc) []) ++ "\""
  else f

/-- Record as emitted by the `csv` crate writer (terminated by `\n`); a
record consisting of one empty field is written as `""` so that it is not
mistaken for a blank line. -/
def writeRecord (fields : List String) : String :=
  match fields with
  | [""] => "\"\"\n"
  | _ => String.intercalate "," (fields.map escapeField) ++ "\n"

end Csv

/-- Conversion of a numeric style value to the enumeration
(`WaypointStyle::from_u8` in `src/types.rs`). -/
def WaypointStyle.from_u8 (v : ℕ) : WaypointStyle :=
  match v with
  | 1 => .Waypoint
  | 2 => .GrassAirfield
  | 3 => .Outlanding
  | 4 => .GlidingAirfield
  | 5 => .SolidAirfield
  | 6 => .MountainPass
  | 7 => .MountainTop
  | 8 => .TransmitterMast
  | 9 => .Vor
  | 10 => .Ndb
  | 11 => .CoolingTower
  | 12 => .Dam
  | 13 => .Tunnel
  | 14 => .Bridge
  | 15 => .PowerPlant
  | 16 => .Castle
  | 17 => .Intersection
  | 18 => .Marker
  | 19 => .ControlPoint
  | 20 => .PgTakeOff
  | 21 => .PgLandingZone
  | _ => .Unknown

namespace ModP

/-- Embedding of `parse_latitude` from `src/parser/mod.rs` (the revision used
by `parse_content`): strict 9-character check after an ASCII check, hemisphere
from the last character, degrees and minutes parsed as `f64`, range check but
no separate minutes check. -/
def parse_latitude (s : String) : Except String ℚ :=
  if ¬ s.data.all (fun c => c.toNat < 128) then
    .error ("Invalid latitude format: " ++ s ++ " (contains non-ASCII characters)")
  else if s.data.length ≠ 9 then
    .error ("Invalid latitude format: " ++ s ++ " (expected 9 characters, got "
      ++ toString s.data.length ++ ")")
  else
    let hemisphere := s.data.getLastD ' '
    let coords := s.data.take 8
    if hemisphere ≠ 'N' ∧ hemisphere ≠ 'S' then
      .error ("Invalid latitude hemisphere: " ++ String.mk [hemisphere])
    else
      match parseDecimalBytes? (strBytes (String.mk (coords.take 2))) with
      | none => .error ("Invalid latitude degrees: " ++ s)
      | some degrees =>
        match parseDecimalBytes? (strBytes (String.mk (coords.drop 2))) with
        | none => .error ("Invalid latitude minutes: " ++ s)
        | some minutes =>
          let dd := degrees + minutes / 60
          let dd := if hemisphere = 'S' then -dd else dd
          if ¬ (-90 ≤ dd ∧ dd ≤ 90) then
            .error ("Latitude out of range: " ++ ratDisplay dd
              ++ " (must be between -90 and 90)")
          else .ok dd

/-- Embedding of `parse_longitude` from `src/parser/mod.rs`. -/
def parse_longitude (s : String) : Except String ℚ :=
  if ¬ s.data.all (fun c => c.toNat < 128) then
    .error ("Invalid longitude format: " ++ s ++ " (contains non-ASCII characters)")
  else if s.data.length ≠ 10 then
    .error ("Invalid longitude format: " ++ s ++ " (expected 10 characters, got "
      ++ toString s.data.length ++ ")")
  else
    let hemisphere := s.data.getLastD ' '
    let coords := s.data.take 9
    if hemisphere ≠ 'E' ∧ hemisphere ≠ 'W' then
      .error ("Invalid longitude hemisphere: " ++ String.mk [hemisphere])
    else
      match parseDecimalBytes? (strBytes (String.mk (coords.take 3))) with
      | none => .error ("Invalid longitude degrees: " ++ s)
      | some degrees =>
        match parseDecimalBytes? (strBytes (String.mk (coords.drop 3))) with
        | none => .error ("Invalid longitude minutes: " ++ s)
        | some minutes =>
          let dd := degrees + minutes / 60
          let dd := if hemisphere = 'W' then -dd else dd
          if ¬ (-180 ≤ dd ∧ dd ≤ 180) then
            .error ("Longitude out of range: " ++ ratDisplay dd
              ++ " (must be between -180 and 180)")
          else .ok dd

/-- Embedding of `parse_waypoint_style` from `src/parser/mod.rs`: a
non-`u8` style text is an error, any `u8` value maps through `from_u8`. -/
def parse_waypoint_style (s : String) : Except String WaypointStyle :=
  match parseUNat? 255 (strBytes s) with
  | some v => .ok (WaypointStyle.from_u8 v)
  | none => .error ("Invalid waypoint style: " ++ s)

/-- Embedding of `parse_waypoint` from `src/parser/mod.rs` (the revision used
by `parse_content`; the dimension parsers are shared with the
`src/types/dimensions.rs` embedding, the two `dimension_enum!` copies in the
tree differing only in error-message quoting). -/
def parse_waypoint (cm : ColumnMap) (record : Record) : Except String Waypoint := do
  let name := (recGet? record cm.name).getD ""
  if name = "" then
    throw "Name field cannot be empty"
  let code := (recGet? record cm.code).getD ""
  let country := (recGet? record cm.country).getD ""
  let latitude ← parse_latitude ((recGet? record cm.lat).getD "")
  let longitude ← parse_longitude ((recGet? record cm.lon).getD "")
  let elevation ← Dim.Elevation.from_str ((recGet? record cm.elev).getD "")
  let style ← parse_waypoint_style ((recGet? record cm.style).getD "")
  let rd := (cm.rwdir.bind (recGet? record)).filter (fun s => s ≠ "")
  let runway_direction ← match rd with
    | some s => (WaypointP.parse_runway_direction s).map some
    | none => pure none
  let rl := (cm.rwlen.bind (recGet? record)).filter (fun s => s ≠ "")
  let runway_length ← match rl with
    | some s => (Dim.RunwayDimension.from_str s).map some
    | none => pure none
  let rw := (cm.rwwidth.bind (recGet? record)).filter (fun s => s ≠ "")
  let runway_width ← match rw with
    | some s => (Dim.RunwayDimension.from_str s).map some
    | none => pure none
  let frequency := (cm.freq.bind (recGet? record)).getD ""
  let description := (cm.desc.bind (recGet? record)).getD ""
  let userdata := (cm.userdata.bind (recGet? record)).getD ""
  let pictures := ((cm.pics.bind (recGet? record)).map WaypointP.parse_pictures).getD []
  return ⟨name, code, country, latitude, longitude, elevation, style,
    runway_direction, runway_length, runway_width, frequency, description,
    userdata, pictures⟩

/-- Embedding of `parse_waypoints` from `src/parser/mod.rs`: consume records
until the task separator, failing the whole parse on any bad row (this
revision has no warning channel); returns the records remaining after the
separator for the task parser sharing the iterator. -/
def parse_waypoints (cm : ColumnMap) :
    List Record → Except String (List Waypoint × List Record)
  | [] => .ok ([], [])
  | r :: rest =>
    if recConcat r = TASK_SEPARATOR then .ok ([], rest)
    else do
      let w ← parse_waypoint cm r
      let (ws, tail) ← parse_waypoints cm rest
      pure (w :: ws, tail)

/-- Embedding of `parse_inline_waypoint_line_with_index` from
`src/parser/mod.rs` — as the `src/parser/task.rs` copy but delegating to
this module's `parse_waypoint`. -/
def parse_inline_waypoint_line_with_index (record : Record) (cm : ColumnMap) :
    Except String (ℕ × Waypoint) := do
  let pointIdxStr := trimStartMatches (record.headD "") "Point="
  match parseUNat? (2 ^ 64 - 1) (strBytes pointIdxStr) with
  | none => throw ("Invalid point index: " ++ pointIdxStr)
  | some point_index => do
    let waypoint ← parse_waypoint cm (record.drop 1)
    pure (point_index, waypoint)

/-- Attachment step of `parse_tasks` from `src/parser/mod.rs`; the
`Options`/`ObsZone=`/`STARTS=` sub-parsers are textually identical to the
`src/parser/task.rs` copies and are shared, only the inline-`Point=` parser
differs in which `parse_waypoint` it calls. -/
def attachStep (cm : ColumnMap) (task : Task) (r : Record) : Except String Task :=
  if TaskP.isOptionsRec r then do
    let o ← TaskP.parse_options_line r
    pure { task with options := some o }
  else if TaskP.isObsZoneRec r then do
    let z ← TaskP.parse_obszone_line r
    pure { task with observation_zones := task.observation_zones ++ [z] }
  else if TaskP.isPointRec r then do
    let (i, w) ← parse_inline_waypoint_line_with_index r cm
    pure { task with points := task.points ++ [(i % 2 ^ 32, w)] }
  else do
    let ss ← TaskP.parse_starts_line r
    pure { task with multiple_starts := ss }

/-- Inner lookahead loop of `parse_tasks` from `src/parser/mod.rs`. -/
def collectAtt (cm : ColumnMap) (task : Task) :
    List Record → Except String (Task × List Record)
  | [] => .ok (task, [])
  | r :: rest =>
    if TaskP.isMarkerRec r then do
      let task2 ← attachStep cm task r
      collectAtt cm task2 rest
    else .ok (task, r :: rest)

/-- Fuelled outer loop of `parse_tasks` from `src/parser/mod.rs`. -/
def parseTasksGo (cm : ColumnMap) : ℕ → List Record → Except String (List Task)
  | 0, _ => .ok []
  | _ + 1, [] => .ok []
  | fuel + 1, r :: rest =>
    if TaskP.isMarkerRec r then parseTasksGo cm fuel rest
    else do
      let task ← TaskP.parse_task_line r
      let (task2, rest2) ← collectAtt cm task rest
      let tasks ← parseTasksGo cm fuel rest2
      pure (task2 :: tasks)

/-- Embedding of `parse_tasks` from `src/parser/mod.rs`. -/
def parse_tasks (cm : ColumnMap) (records : List Record) : Except String (List Task) :=
  parseTasksGo cm records.length records

/-- Embedding of `parse_content` from `src/parser/mod.rs`: trim, reject empty
input, CSV-decode, build the column map from the header record, parse the
waypoint table up to the separator and the task section after it. -/
def parse_content (content : String) : Except String CupFile :=
  let content := trimStr content
  if content = "" then .error "Empty file"
  else do
    let records ← Csv.parseRecords content
    match records with
    | [] => .error "Empty file"
    | headers :: rest => do
      let cm ← build_column_map headers
      let (waypoints, taskRecs) ← parse_waypoints cm rest
      let tasks ← parse_tasks cm taskRecs
      pure ⟨waypoints, tasks⟩

end ModP

/-- Natural number zero-padded to a minimum width (Rust `{:0w}`). -/
def padNat (w n : ℕ) : String :=
  let s := toString n
  String.mk (List.replicate (w - s.length) '0') ++ s

/-- Round half to even, as Rust float formatting rounds the exact value. -/
def roundHalfEven (q : ℚ) : ℤ :=
  let f := Int.floor q
  let r := q - f
  if r < 1 / 2 then f
  else if 1 / 2 < r then f + 1
  else if f % 2 = 0 then f else f + 1

/-- Rust `str::trim_end`. -/
def trimEnd (s : String) : String :=
  String.mk ((s.data.reverse.dropWhile Char.isWhitespace).reverse)

namespace WriterM

/-- Embedding of `format_latitude` from `src/writer/mod.rs`: hemisphere by
sign, integer degrees zero-padded to 2 digits, minutes formatted `{:06.3}`
(three decimals, zero-padded to width 6). -/
def format_latitude (lat : ℚ) : String :=
  let hemisphere := if 0 ≤ lat then "N" else "S"
  let a := |lat|
  let degrees := (Int.floor a).toNat
  let minutes := (a - degrees) * 60
  let m3 := (roundHalfEven (minutes * 1000)).toNat
  padNat 2 degrees ++ padNat 2 (m3 / 1000) ++ "." ++ padNat 3 (m3 % 1000) ++ hemisphere

/-- Embedding of `format_longitude` from `src/writer/mod.rs` (3-digit
degrees, `E`/`W`). -/
def format_longitude (lon : ℚ) : String :=
  let hemisphere := if 0 ≤ lon then "E" else "W"
  let a := |lon|
  let degrees := (Int.floor a).toNat
  let minutes := (a - degrees) * 60
  let m3 := (roundHalfEven (minutes * 1000)).toNat
  padNat 3 degrees ++ padNat 2 (m3 / 1000) ++ "." ++ padNat 3 (m3 % 1000) ++ hemisphere

/-- The 14 fields of one waypoint row as written by `write_waypoint` from
`src/writer/mod.rs`. -/
def waypointFields (w : Waypoint) : List String :=
  [w.name, w.code, w.country,
    format_latitude w.latitude,
    format_longitude w.longitude,
    w.elevation.display,
    toString w.style.toNat,
    (w.runway_direction.map (padNat 3)).getD "",
    (w.runway_length.map Dim.RunwayDimension.display).getD "",
    (w.runway_width.map Dim.RunwayDimension.display).getD "",
    w.frequency, w.description, w.userdata,
    if w.pictures = [] then "" else String.intercalate ";" w.pictures]

/-- Embedding of `format_task_options` from `src/writer/mod.rs`: the
`Options` marker followed by every present field, comma-joined. -/
def format_task_options (o : TaskOptions) : String :=
  let parts := ["Options"]
    ++ (match o.no_start with | some v => ["NoStart=" ++ v] | none => [])
    ++ (match o.task_time with | some v => ["TaskTime=" ++ v] | none => [])
    ++ (match o.wp_dis with
        | some v => ["WpDis=" ++ if v then "True" else "False"] | none => [])
    ++ (match o.near_dis with | some v => ["NearDis=" ++ v.display] | none => [])
    ++ (match o.near_alt with | some v => ["NearAlt=" ++ v.display] | none => [])
    ++ (match o.min_dis with
        | some v => ["MinDis=" ++ if v then "True" else "False"] | none => [])
    ++ (match o.random_order with
        | some v => ["RandomOrder=" ++ if v then "True" else "False"] | none => [])
    ++ (match o.max_pts with | some v => ["MaxPts=" ++ toString v] | none => [])
    ++ (match o.before_pts with | some v => ["BeforePts=" ++ toString v] | none => [])
    ++ (match o.after_pts with | some v => ["AfterPts=" ++ toString v] | none => [])
    ++ (match o.bonus with | some v => ["Bonus=" ++ ratDisplay v] | none => [])
  String.intercalate "," parts

/-- Embedding of `format_observation_zone` from `src/writer/mod.rs`. -/
def format_observation_zone (z : ObservationZone) : String :=
  let parts := ["ObsZone=" ++ toString z.index, "Style=" ++ toString z.style.toNat]
    ++ (match z.r1 with | some v => ["R1=" ++ v.display] | none => [])
    ++ (match z.a1 with | some v => ["A1=" ++ ratDisplay v] | none => [])
    ++ (match z.r2 with | some v => ["R2=" ++ v.display] | none => [])
    ++ (match z.a2 with | some v => ["A2=" ++ ratDisplay v] | none => [])
    ++ (match z.a12 with | some v => ["A12=" ++ ratDisplay v] | none => [])
    ++ (match z.line with
        | some v => ["Line=" ++ if v then "True" else "False"] | none => [])
  String.intercalate "," parts

/-- Embedding of `format_multiple_starts` from `src/writer/mod.rs`: every
name wrapped by hand in double quotes (no CSV escaping), comma-joined behind
the `STARTS=` marker. -/
def format_multiple_starts (starts : List String) : String :=
  "STARTS=" ++ String.intercalate "," (starts.map (fun s => "\"" ++ s ++ "\""))

/-- Embedding of `format_inline_waypoint_line` from `src/writer/mod.rs`:
a CSV record of `Point=<index>` followed by the 14 waypoint fields, with the
trailing newline trimmed. -/
def format_inline_waypoint_line (index : ℕ) (w : Waypoint) : String :=
  trimEnd (Csv.writeRecord (("Point=" ++ toString index) :: waypointFields w))

/-- Embedding of `format_task` from `src/writer/mod.rs`: the task-header CSV
row (trailing newline trimmed), then one line per present attachment. -/
def format_task (t : Task) : String :=
  let headerLine := trimEnd (Csv.writeRecord ((t.description.getD "") :: t.waypoint_names))
  headerLine
    ++ (match t.options with | some o => "\n" ++ format_task_options o | none => "")
    ++ String.join (t.observation_zones.map (fun z => "\n" ++ format_observation_zone z))
    ++ String.join (t.points.map (fun p => "\n" ++ format_inline_waypoint_line p.1 p.2))
    ++ (if t.multiple_starts = [] then ""
        else "\n" ++ format_multiple_starts t.multiple_starts)

/-- Embedding of `format_cup_file` from `src/writer/mod.rs`: header row, one
CSV row per waypoint, then (when tasks exist) the separator line and each
formatted task on its own line.  The Rust function's `Result` never errors
for in-memory output, so the model returns the text directly. -/
def format_cup_file (f : CupFile) : String :=
  Csv.writeRecord ["name", "code", "country", "lat", "lon", "elev", "style",
    "rwdir", "rwlen", "rwwidth", "freq", "desc", "userdata", "pics"]
  ++ String.join (f.waypoints.map (fun w => Csv.writeRecord (waypointFields w)))
  ++ (if f.tasks = [] then ""
      else TASK_SEPARATOR ++ "\n"
        ++ String.join (f.tasks.map (fun t => format_task t ++ "\n")))

end WriterM

namespace Fixtures

/-- Column map of the seven-column header `name,code,country,lat,lon,elev,style`. -/
def cm7 : ColumnMap :=
  ⟨0, 1, 2, 3, 4, 5, 6, none, none, none, none, none, none, none⟩

/-- Inline-waypoint record from the spec's column-alignment example. -/
def c4Record : Record :=
  ["Point=1", "TP1", "T1", "XX", "5148.000N", "00406.000W", "600m", "1"]

/-- Waypoint produced by the spec's column-alignment example. -/
def c4Waypoint : Waypoint :=
  ⟨"TP1", "T1", "XX", 259 / 5, -41 / 10, .Meters 600, .Waypoint,
    none, none, none, "", "", "", []⟩

/-- Well-formed waypoint row for the row-skip example. -/
def goodRow : Record := ["Good", "G", "XX", "5147.809N", "00405.003W", "500m", "1"]

/-- Waypoint row with an out-of-range latitude for the row-skip example. -/
def badRow : Record := ["Bad", "B", "XX", "9100.000N", "00405.003W", "500m", "1"]

/-- Waypoint parsed from `goodRow`. -/
def goodWaypoint : Waypoint :=
  ⟨"Good", "G", "XX", 3107809 / 60000, -(245003 / 60000), .Meters 500, .Waypoint,
    none, none, none, "", "", "", []⟩

/-- CupFile whose round trip through the writer and the parser loses the
quoting of the first alternate-start name. -/
def c1File : CupFile :=
  ⟨[], [⟨some "T", ["A"], none, [], [], ["Start1", "Start2"]⟩]⟩

/-- What the parser actually returns on the written form of `c1File`: the
first alternate-start name keeps the literal quotes the writer added by
hand. -/
def c1Reparsed : CupFile :=
  ⟨[], [⟨some "T", ["A"], none, [], [], ["\"Start1\"", "Start2"]⟩]⟩

/-- Task-header record for the attachment-collection example. -/
def c3Header : Record := ["Task 1", "A", "B"]

/-- First Options attachment record (overwritten by the second). -/
def c3Opts1 : Record := ["Options", "NoStart=11:00:00"]

/-- Second Options attachment record (the last one wins). -/
def c3Opts2 : Record := ["Options", "TaskTime=02:00:00"]

/-- Observation-zone attachment record. -/
def c3Zone : Record := ["ObsZone=0", "Style=2", "R1=400m", "A1=180"]

/-- Alternate-starts attachment record. -/
def c3Starts : Record := ["STARTS=Celovec", "Hodos"]

/-- Inline-point attachment record. -/
def c3Point : Record :=
  ["Point=1", "TP1", "T1", "XX", "5148.000N", "00406.000W", "600m", "1"]

/-- Task opened by `c3Header` before any attachment. -/
def c3T0 : Task := ⟨some "Task 1", ["A", "B"], none, [], [], []⟩

/-- Observation zone parsed from `c3Zone`. -/
def c3ZoneParsed : ObservationZone :=
  ⟨0, .ToNextPoint, some (.Meters 400), some 180, none, none, none, none⟩

/-- Task after all five attachments: the second Options line wins, the zone
and the point are appended, the STARTS names are set. -/
def c3Task : Task :=
  ⟨some "Task 1", ["A", "B"],
    some ⟨none, some "02:00:00", none, none, none, none, none, none, none, none, none⟩,
    [c3ZoneParsed], [(1, c4Waypoint)], ["Celovec", "Hodos"]⟩

end Fixtures

/-- The 14 canonical column names in canonical order. -/
def canonicalHeaders : List String :=
  ["name", "code", "country", "lat", "lon", "elev", "style",
    "rwdir", "rwlen", "rwwidth", "freq", "desc", "userdata", "pics"]

/-- Index of the last header matching a column name case-insensitively —
the value each slot of the header scan ends up holding. -/
def slotFind (headers : List String) (nm : String) : Option ℕ :=
  (headers.enum.reverse.find? (fun ih => lowercase ih.2 == nm)).map Prod.fst

/-- Column map produced from the canonical header order. -/
def cmCanonical : ColumnMap :=
  ⟨0, 1, 2, 3, 4, 5, 6, some 7, some 8, some 9, some 10, some 11, some 12, some 13⟩

/-- The seven mandatory column names, in the order `build_column_map`
demands them. -/
def mandatoryNames : List String :=
  ["name", "code", "country", "lat", "lon", "elev", "style"]

/-- Concrete header/value pairs in the spec's permuted order
`lat,lon,elev,name,code,country,style,...`. -/
def c9Pairs : List (String × String) :=
  [("lat", "5148.000N"), ("lon", "00406.000W"), ("elev", "600m"),
    ("name", "TP1"), ("code", "T1"), ("country", "XX"), ("style", "1"),
    ("rwdir", ""), ("rwlen", ""), ("rwwidth", ""), ("freq", ""), ("desc", ""),
    ("userdata", ""), ("pics", "")]

/-- The same row's values in canonical column order. -/
def c9Vals : List String :=
  ["TP1", "T1", "XX", "5148.000N", "00406.000W", "600m", "1",
    "", "", "", "", "", "", ""]

/-! Claim theorems. -/

/-- Lemma: inputs shorter than 9 bytes take `parse_latitude`'s length-error
branch. -/
theorem parse_latitude_short (s : String) (h : (strBytes s).length < 9) :
    Basics.parse_latitude s =
      some (.error ("Invalid latitude format: '" ++ s ++ "' (expected 9 characters, got "
        ++ toString (strBytes s).length ++ ")")) := by
  unfold Basics.parse_latitude
  rw [if_pos h]

/-- C5 (amended): latitude parsing enforces a MINIMUM length of 9 bytes: every
input shorter than 9 bytes is rejected with the length error, and in
particular the 7-character `"5147.8N"` is; the canonical form is 9 bytes
(2 degree digits, 2 minute digits, `.`, 3 fractional digits, hemisphere), but
longer inputs carrying extra fractional-minute digits are not rejected for
their length. -/
theorem c5_latitude_min_length :
    (∀ s : String, (strBytes s).length < 9 →
      Basics.parse_latitude s =
        some (.error ("Invalid latitude format: '" ++ s ++ "' (expected 9 characters, got "
          ++ toString (strBytes s).length ++ ")")))
    ∧ Basics.parse_latitude "5147.8N" =
        some (.error "Invalid latitude format: '5147.8N' (expected 9 characters, got 7)") := by
  refine ⟨parse_latitude_short, ?_⟩
  with_unfolding_all rfl

/-- C5 witness: the amended claim applied at the concrete 4-byte input
`"123N"`. -/
theorem c5_witness :
    Basics.parse_latitude "123N" =
      some (.error ("Invalid latitude format: '" ++ "123N" ++ "' (expected 9 characters, got "
        ++ toString (strBytes "123N").length ++ ")")) :=
  c5_latitude_min_length.1 "123N" (by with_unfolding_all decide)

/-- C5 counterexample: the 11-byte input `"1234.56789N"` parses successfully
(to 12 + 34.56789/60 degrees), refuting the claim that every input whose
byte length is not 9 is rejected. -/
theorem c5_counterexample :
    (strBytes "1234.56789N").length = 11
    ∧ Basics.parse_latitude "1234.56789N" = some (.ok (25152263 / 2000000)) := by
  constructor
  · with_unfolding_all rfl
  · with_unfolding_all rfl

/-- C1 (code bug): the writer emits hand-quoted alternate-start names
(`STARTS="Start1","Start2"`) that the parser does not unquote, so re-parsing
the written form of a CupFile with alternate starts does not reproduce its
tasks: the first start name comes back with literal double quotes. -/
theorem c1_roundtrip_starts_quoting :
    WriterM.format_cup_file Fixtures.c1File =
      "name,code,country,lat,lon,elev,style,rwdir,rwlen,rwwidth,freq,desc,userdata,pics\n"
        ++ "-----Related Tasks-----\nT,A\nSTARTS=\"Start1\",\"Start2\"\n"
    ∧ ModP.parse_content (WriterM.format_cup_file Fixtures.c1File) = .ok Fixtures.c1Reparsed
    ∧ Fixtures.c1Reparsed.tasks.map Task.multiple_starts
        ≠ Fixtures.c1File.tasks.map Task.multiple_starts := by
  refine ⟨?_, ?_, ?_⟩
  · with_unfolding_all rfl
  · with_unfolding_all rfl
  · with_unfolding_all decide

/-- C7 counterexample: `"1e5"` has no trailing alphabetic run (its last
character is a digit) and is a valid bare `f64` literal (100000), yet the
distance parser rejects it with an invalid-unit error naming `e5` instead of
defaulting it to meters. -/
theorem c7_counterexample :
    isAlphaChar ("1e5".data.getLastD ' ') = false
    ∧ parseDecimal? "1e5" = some 100000
    ∧ Dim.Distance.from_str "1e5" = .error "Invalid distance unit: 'e5'" := by
  refine ⟨by decide, ?_, ?_⟩
  · with_unfolding_all rfl
  · with_unfolding_all rfl

/-- Lemma: a string ending in a given suffix contains that suffix's
characters. -/
theorem mem_of_isSuffixOf {suf s : List Char} (h : suf.isSuffixOf s) {c : Char}
    (hc : c ∈ suf) : c ∈ s :=
  (List.isSuffixOf_iff_suffix.1 h).subset hc

/-- Lemma: `strip_suffix` misses when the suffix is not a suffix. -/
theorem stripSuffix?_eq_none {s suf : String}
    (h : ¬ (suf.data.isSuffixOf s.data = true)) : stripSuffix? s suf = none := by
  unfold stripSuffix?
  rw [if_neg h]

/-- Lemma: on a string with no alphabetic character, no letter-bearing suffix
strips, and the dimension parser takes the bare-number branch. -/
theorem distance_from_str_bare (s : String)
    (halpha : ∀ c ∈ (trimStr s).data, isAlphaChar c = false)
    (q : ℚ) (hq : parseDecimal? (trimStr s) = some q) :
    Dim.Distance.from_str s = .ok (.Meters q) := by
  have hm : ('m' : Char) ∉ (trimStr s).data := by
    intro hmem
    have := halpha _ hmem
    simp [isAlphaChar] at this
  have hsuf : ∀ suf : String, 'm' ∈ suf.data →
      stripSuffix? (trimStr s) suf = none := by
    intro suf hmsuf
    refine stripSuffix?_eq_none ?_
    intro hs
    exact hm (mem_of_isSuffixOf hs hmsuf)
  simp only [Dim.Distance.from_str, Dim.suffixStep]
  rw [hsuf "km" (by decide), hsuf "nm" (by decide), hsuf "ml" (by decide),
    hsuf "m" (by decide)]
  simp only [Dim.bareTail]
  rw [List.findIdx?_eq_none_iff.2 halpha, hq]

/-- C7 (amended): the multi-letter suffixes are checked before the
single-letter `m`, so `"1.5nm"` parses as NauticalMiles(1.5) and `"500"`
parses as Meters(500.0); the bare-number default applies exactly to inputs
with no alphabetic character anywhere (after trimming) — an input such as
`"1e5"` whose only alphabetic character is not part of a trailing run is
instead rejected with an invalid-unit error naming the substring from its
first alphabetic character. -/
theorem c7_suffix_precedence :
    Dim.Distance.from_str "1.5nm" = .ok (.NauticalMiles (3 / 2))
    ∧ Dim.Distance.from_str "500" = .ok (.Meters 500)
    ∧ (∀ s : String, (∀ c ∈ (trimStr s).data, isAlphaChar c = false) →
        ∀ q : ℚ, parseDecimal? (trimStr s) = some q →
          Dim.Distance.from_str s = .ok (.Meters q)) := by
  refine ⟨?_, ?_, distance_from_str_bare⟩
  · with_unfolding_all rfl
  · with_unfolding_all rfl

/-- C7 witness: the amended claim applied at the concrete input `"500"`. -/
theorem c7_witness : Dim.Distance.from_str "500" = .ok (.Meters 500) :=
  c7_suffix_precedence.2.2 "500" (by decide) 500 (by with_unfolding_all rfl)

/-- C8 counterexample: `"500km"` as an Elevation does not produce the
invalid-unit error naming `km` — the single-letter `m` suffix strips first
and the leftover `"500k"` fails the number parse, producing the
invalid-value error naming the whole input. -/
theorem c8_counterexample :
    Dim.Elevation.from_str "500km" = .error "Invalid elevation: '500km'"
    ∧ "Invalid elevation: '500km'" ≠ "Invalid elevation unit: 'km'" := by
  refine ⟨?_, by decide⟩
  with_unfolding_all rfl

/-- C8 (amended): the invalid-unit error arises exactly when no declared
suffix of the dimension strips from the (trimmed) input and it still contains
an alphabetic character; the error names the substring from the first
alphabetic character to the end.  `"500km"` as an Elevation ends in the
declared suffix `m`, so it is instead rejected with the invalid-value error
`Invalid elevation: '500km'`. -/
theorem c8_invalid_unit :
    (∀ (s : String) (i : ℕ),
      ¬ ("ft".data.isSuffixOf (trimStr s).data)
      → ¬ ("m".data.isSuffixOf (trimStr s).data)
      → (trimStr s).data.findIdx? isAlphaChar = some i
      → Dim.Elevation.from_str s =
          .error ("Invalid elevation unit: '" ++ String.mk ((trimStr s).data.drop i) ++ "'"))
    ∧ Dim.Elevation.from_str "500km" = .error "Invalid elevation: '500km'" := by
  constructor
  · intro s i hft hm hidx
    simp only [Dim.Elevation.from_str, Dim.suffixStep]
    rw [stripSuffix?_eq_none hft, stripSuffix?_eq_none hm]
    simp only [Dim.bareTail]
    rw [hidx]
    rfl
  · with_unfolding_all rfl

/-- C8 witness: the amended claim applied at the concrete input `"500xy"`
(first alphabetic character at index 3). -/
theorem c8_witness :
    Dim.Elevation.from_str "500xy" =
      .error ("Invalid elevation unit: '" ++ String.mk ((trimStr "500xy").data.drop 3) ++ "'") :=
  c8_invalid_unit.1 "500xy" 3 (by decide) (by decide) (by decide)

/-- C4: the fields after the leading `Point=<index>` field of an inline
waypoint line are parsed as a waypoint record through the waypoint table's
column map applied to the one-position-shifted record (`record.drop 1`);
on the spec's example, the line
`Point=1,"TP1",T1,XX,5148.000N,00406.000W,600m,1` against the seven-column
header `name,code,country,lat,lon,elev,style` yields point index 1 and an
inline waypoint named `TP1` with code `T1`. -/
theorem c4_inline_column_alignment :
    (∀ (cm : ColumnMap) (r : Record) (i : ℕ) (w : Waypoint),
        TaskP.parse_inline_waypoint_line_with_index r cm = .ok (i, w) →
        WaypointP.parse_waypoint cm (r.drop 1) = .ok w)
    ∧ build_column_map ["name", "code", "country", "lat", "lon", "elev", "style"]
        = .ok Fixtures.cm7
    ∧ TaskP.parse_inline_waypoint_line_with_index Fixtures.c4Record Fixtures.cm7
        = .ok (1, Fixtures.c4Waypoint)
    ∧ Fixtures.c4Waypoint.name = "TP1" ∧ Fixtures.c4Waypoint.code = "T1" := by
  refine ⟨?_, ?_, ?_, rfl, rfl⟩
  · intro cm r i w h
    simp only [TaskP.parse_inline_waypoint_line_with_index] at h
    rcases hp : parseUNat? (2 ^ 64 - 1) (strBytes (trimStartMatches (r.headD "") "Point="))
      with _ | pi
    · rw [hp] at h
      exact absurd h (by simp [throw, throwThe, MonadExceptOf.throw])
    · rw [hp] at h
      rcases hw : WaypointP.parse_waypoint cm (r.drop 1) with e | w2
      · rw [hw] at h
        simp [bind, Except.bind] at h
      · rw [hw] at h
        simp only [bind, Except.bind, pure, Except.pure, Except.ok.injEq,
          Prod.mk.injEq] at h
        rw [h.2]
  · with_unfolding_all rfl
  · with_unfolding_all rfl

/-- C4 witness: the shift property applied at the spec's concrete example. -/
theorem c4_witness :
    WaypointP.parse_waypoint Fixtures.cm7 (Fixtures.c4Record.drop 1)
      = .ok Fixtures.c4Waypoint :=
  c4_inline_column_alignment.1 Fixtures.cm7 Fixtures.c4Record 1 Fixtures.c4Waypoint
    (by with_unfolding_all rfl)

/-- C2 (spec-modelled): the warning-collecting waypoint-table loop never
fails: its waypoints are exactly the rows whose record parse succeeds (in
order), its warnings exactly the failing rows' messages tagged with their
1-based source lines (in order), and on a table with one well-formed row and
one row with an out-of-range latitude it yields exactly one waypoint and one
warning. -/
theorem c2_row_skip_not_fail :
    (∀ (cm : ColumnMap) (rows : List (ℕ × Record)),
      (WaypointP.parse_waypoints_model cm rows).1
        = rows.filterMap (fun p => (WaypointP.parse_waypoint cm p.2).toOption)
      ∧ (WaypointP.parse_waypoints_model cm rows).2
        = rows.filterMap (fun p =>
            match WaypointP.parse_waypoint cm p.2 with
            | .error e => some ⟨e, some p.1⟩
            | .ok _ => none))
    ∧ WaypointP.parse_waypoints_model Fixtures.cm7 [(2, Fixtures.goodRow), (3, Fixtures.badRow)]
        = ([Fixtures.goodWaypoint],
           [⟨"Latitude out of range: '91' (must be between -90 and 90)", some 3⟩]) := by
  constructor
  · intro cm rows
    induction rows with
    | nil => exact ⟨rfl, rfl⟩
    | cons p rest ih =>
      obtain ⟨ih1, ih2⟩ := ih
      obtain ⟨ln, r⟩ := p
      simp only [WaypointP.parse_waypoints_model, List.filterMap_cons]
      cases h : WaypointP.parse_waypoint cm r <;>
        simp [h, ih1, ih2, Except.toOption]
  · with_unfolding_all rfl

/-- Lemma: a fold that overwrites its accumulator on `p`-matching elements
returns the image of the last match, or the initial value. -/
theorem foldl_if_last {α β : Type} (p : α → Bool) (f : α → β) :
    ∀ (l : List α) (init : β),
      l.foldl (fun acc r => if p r then f r else acc) init
        = ((l.reverse.find? p).map f).getD init := by
  intro l
  induction l with
  | nil => intro init; rfl
  | cons a t ih =>
    intro init
    simp only [List.foldl_cons, List.reverse_cons, List.find?_append]
    rw [ih]
    rcases h : t.reverse.find? p with _ | r
    · simp only [Option.none_or]
      cases hp : p a <;> simp [List.find?, hp]
    · simp [Option.or]

/-- Field effect of one attachment step: descriptions and waypoint names are
never touched, Options lines overwrite, zone and point lines append, STARTS
lines replace the start list. -/
theorem attachStep_fields (cm : ColumnMap) (t t2 : Task) (r : Record)
    (h : TaskP.attachStep cm t r = .ok t2) :
    t2.description = t.description
    ∧ t2.waypoint_names = t.waypoint_names
    ∧ t2.options = (if TaskP.isOptionsRec r
        then (TaskP.parse_options_line r).toOption else t.options)
    ∧ t2.observation_zones = t.observation_zones ++
        (if TaskP.isOptionsRec r then []
         else if TaskP.isObsZoneRec r
           then ((TaskP.parse_obszone_line r).toOption.map (fun z => [z])).getD []
           else [])
    ∧ t2.points = t.points ++
        (if TaskP.isOptionsRec r ∨ TaskP.isObsZoneRec r then []
         else if TaskP.isPointRec r
           then ((TaskP.parse_inline_waypoint_line_with_index r cm).toOption.map
              (fun p => [(p.1 % 2 ^ 32, p.2)])).getD []
           else [])
    ∧ t2.multiple_starts = (if TaskP.isOptionsRec r ∨ TaskP.isObsZoneRec r ∨ TaskP.isPointRec r
        then t.multiple_starts
        else ((TaskP.parse_starts_line r).toOption).getD t.multiple_starts) := by
  unfold TaskP.attachStep at h
  by_cases ho : TaskP.isOptionsRec r = true
  · rw [if_pos ho] at h
    rcases hp : TaskP.parse_options_line r with e | o <;> rw [hp] at h
    · simp [bind, Except.bind] at h
    · simp only [bind, Except.bind, pure, Except.pure, Except.ok.injEq] at h
      subst h
      simp [ho, hp, Except.toOption]
  · rw [if_neg ho] at h
    by_cases hz : TaskP.isObsZoneRec r = true
    · rw [if_pos hz] at h
      rcases hp : TaskP.parse_obszone_line r with e | z <;> rw [hp] at h
      · simp [bind, Except.bind] at h
      · simp only [bind, Except.bind, pure, Except.pure, Except.ok.injEq] at h
        subst h
        simp [ho, hz, hp, Except.toOption]
    · rw [if_neg hz] at h
      by_cases hpt : TaskP.isPointRec r = true
      · rw [if_pos hpt] at h
        rcases hp : TaskP.parse_inline_waypoint_line_with_index r cm with e | iw <;>
          rw [hp] at h
        · simp [bind, Except.bind] at h
        · simp only [bind, Except.bind, pure, Except.pure, Except.ok.injEq] at h
          subst h
          simp [ho, hz, hpt, hp, Except.toOption]
      · rw [if_neg hpt] at h
        rcases hp : TaskP.parse_starts_line r with e | ss <;> rw [hp] at h
        · simp [bind, Except.bind] at h
        · simp only [bind, Except.bind, pure, Except.pure, Except.ok.injEq] at h
          subst h
          simp [ho, hz, hpt, hp, Except.toOption]

/-- Field characterization of the whole attachment fold: waypoint names and
description are preserved, Options and STARTS are last-consumed-wins, zones
and points are appended in order of appearance. -/
theorem foldAttach_fields (cm : ColumnMap) :
    ∀ (atts : List Record) (t0 t1 : Task),
      atts.foldlM (TaskP.attachStep cm) t0 = .ok t1 →
      t1.description = t0.description
      ∧ t1.waypoint_names = t0.waypoint_names
      ∧ t1.options = atts.foldl (fun acc r =>
          if TaskP.isOptionsRec r then (TaskP.parse_options_line r).toOption else acc)
          t0.options
      ∧ t1.observation_zones = t0.observation_zones ++ atts.filterMap (fun r =>
          if TaskP.isOptionsRec r then none
          else if TaskP.isObsZoneRec r then (TaskP.parse_obszone_line r).toOption
          else none)
      ∧ t1.points = t0.points ++ atts.filterMap (fun r =>
          if TaskP.isOptionsRec r ∨ TaskP.isObsZoneRec r then none
          else if TaskP.isPointRec r then
            (TaskP.parse_inline_waypoint_line_with_index r cm).toOption.map
              (fun p => (p.1 % 2 ^ 32, p.2))
          else none)
      ∧ t1.multiple_starts = atts.foldl (fun acc r =>
          if TaskP.isOptionsRec r ∨ TaskP.isObsZoneRec r ∨ TaskP.isPointRec r then acc
          else ((TaskP.parse_starts_line r).toOption).getD acc)
          t0.multiple_starts := by
  intro atts
  induction atts with
  | nil =>
    intro t0 t1 h
    simp only [List.foldlM_nil, pure, Except.pure, Except.ok.injEq] at h
    subst h
    simp
  | cons a rest ih =>
    intro t0 t1 h
    simp only [List.foldlM_cons] at h
    rcases ha : TaskP.attachStep cm t0 a with e | t2 <;> rw [ha] at h
    · simp [bind, Except.bind] at h
    · simp only [bind, Except.bind] at h
      obtain ⟨hd, hn, ho, hz, hp, hs⟩ := ih t2 t1 h
      obtain ⟨ad, an, ao, az, ap, as⟩ := attachStep_fields cm t0 t2 a ha
      refine ⟨hd.trans ad, hn.trans an, ?_, ?_, ?_, ?_⟩
      · rw [List.foldl_cons, ho, ao]
      · rw [List.filterMap_cons, hz, az]
        by_cases h1 : TaskP.isOptionsRec a = true
        · simp [h1]
        · by_cases h2 : TaskP.isObsZoneRec a = true
          · simp only [h1, h2, if_false, if_true, Bool.false_eq_true]
            rcases TaskP.parse_obszone_line a with e | z <;>
              simp [Except.toOption, List.append_assoc]
          · simp [h1, h2]
      · rw [List.filterMap_cons, hp, ap]
        by_cases h1 : TaskP.isOptionsRec a ∨ TaskP.isObsZoneRec a
        · simp [h1]
        · by_cases h2 : TaskP.isPointRec a = true
          · simp only [h1, if_false, h2, if_true]
            rcases TaskP.parse_inline_waypoint_line_with_index a cm with e | iw <;>
              simp [Except.toOption, List.append_assoc]
          · simp [h1, h2]
      · rw [List.foldl_cons, hs, as]

/-- Lemma: the lookahead loop consumes exactly the leading run of marker
records and is the attachment fold over them. -/
theorem collectAtt_split (cm : ColumnMap) :
    ∀ (atts : List Record) (t : Task) (rest : List Record),
      (∀ a ∈ atts, TaskP.isMarkerRec a = true) →
      (∀ r0 ∈ rest.head?, TaskP.isMarkerRec r0 = false) →
      TaskP.collectAtt cm t (atts ++ rest)
        = Except.map (fun t1 => (t1, rest)) (atts.foldlM (TaskP.attachStep cm) t) := by
  intro atts
  induction atts with
  | nil =>
    intro t rest _ hrest
    cases rest with
    | nil => rfl
    | cons r0 rest' =>
      have h0 : TaskP.isMarkerRec r0 = false := hrest r0 (by simp)
      simp [TaskP.collectAtt, h0, Except.map, List.foldlM_nil, pure, Except.pure]
  | cons a atts' ih =>
    intro t rest hm hrest
    have ha : TaskP.isMarkerRec a = true := hm a (by simp)
    simp only [List.cons_append, TaskP.collectAtt, ha, if_true, List.foldlM_cons]
    rcases hs : TaskP.attachStep cm t a with e | t2
    · simp [bind, Except.bind, hs, Except.map]
    · simp only [bind, Except.bind, hs]
      exact ih t2 rest (fun x hx => hm x (by simp [hx])) hrest

/-- Lemma: the lookahead loop returns a suffix no longer than its input. -/
theorem collectAtt_length (cm : ColumnMap) :
    ∀ (l : List Record) (t t' : Task) (l' : List Record),
      TaskP.collectAtt cm t l = .ok (t', l') → l'.length ≤ l.length := by
  intro l
  induction l with
  | nil =>
    intro t t' l' h
    simp only [TaskP.collectAtt, Except.ok.injEq, Prod.mk.injEq] at h
    simp [← h.2]
  | cons r rest ih =>
    intro t t' l' h
    simp only [TaskP.collectAtt] at h
    by_cases hm : TaskP.isMarkerRec r = true
    · rw [if_pos hm] at h
      rcases hs : TaskP.attachStep cm t r with e | t2 <;> rw [hs] at h
      · simp [bind, Except.bind] at h
      · simp only [bind, Except.bind] at h
        exact (ih t2 t' l' h).trans (by simp)
    · rw [if_neg hm] at h
      simp only [Except.ok.injEq, Prod.mk.injEq] at h
      simp [← h.2]

/-- Lemma: the fuelled task loop ignores fuel beyond the list length. -/
theorem parseTasksGo_fuel (cm : ColumnMap) :
    ∀ (k : ℕ) (records : List Record) (n : ℕ),
      records.length ≤ k → records.length ≤ n →
      TaskP.parseTasksGo cm n records = TaskP.parseTasksGo cm records.length records := by
  intro k
  induction k with
  | zero =>
    intro records n hk _
    have : records = [] := List.length_eq_zero.1 (Nat.le_zero.1 hk)
    subst this
    cases n <;> rfl
  | succ k ih =>
    intro records n hk hn
    cases records with
    | nil => cases n <;> rfl
    | cons r rest =>
      simp only [List.length_cons] at hk hn
      obtain ⟨n', rfl⟩ : ∃ n', n = n' + 1 :=
        ⟨n - 1, by omega⟩
      simp only [TaskP.parseTasksGo]
      by_cases hm : TaskP.isMarkerRec r = true
      · rw [if_pos hm, if_pos hm]
        rw [ih rest n' (by omega) (by omega), ih rest rest.length (by omega) (by omega)]
      · rw [if_neg hm, if_neg hm]
        rcases ht : TaskP.parse_task_line r with e | t0
        · simp [bind, Except.bind]
        · simp only [bind, Except.bind]
          rcases hc : TaskP.collectAtt cm t0 rest with e | p
          · simp
          · obtain ⟨t2, rest2⟩ := p
            have hlen : rest2.length ≤ rest.length :=
              collectAtt_length cm rest t0 t2 rest2 hc
            simp only
            rw [ih rest2 n' (by omega) (by omega),
              ih rest2 rest.length (by omega) (by omega)]

/-- C3: task-attachment collection.  First conjunct: a marker record before
any task header is silently skipped by the outer loop.  Second conjunct:
after a task-header record, the whole leading run of marker records — any
number, any kind, any order — is attached to that task and parsing resumes at
the first non-marker record; the description and the waypoint-name references
come from the header line alone, each Options (and STARTS) line overwrites so
that the last one consumed wins, and the ObsZone and Point lines are appended
to their lists in order of appearance. -/
theorem c3_task_attachment_collection :
    (∀ (cm : ColumnMap) (r : Record) (rest : List Record),
      TaskP.isMarkerRec r = true →
      TaskP.parse_tasks cm (r :: rest) = TaskP.parse_tasks cm rest)
    ∧ (∀ (cm : ColumnMap) (hrec : Record) (atts rest : List Record) (t0 t1 : Task),
      TaskP.isMarkerRec hrec = false →
      (∀ a ∈ atts, TaskP.isMarkerRec a = true) →
      (∀ r0 ∈ rest.head?, TaskP.isMarkerRec r0 = false) →
      TaskP.parse_task_line hrec = .ok t0 →
      atts.foldlM (TaskP.attachStep cm) t0 = .ok t1 →
      TaskP.parse_tasks cm (hrec :: (atts ++ rest))
        = Except.map (fun ts => t1 :: ts) (TaskP.parse_tasks cm rest)
      ∧ t1.description = t0.description
      ∧ t1.waypoint_names = t0.waypoint_names
      ∧ t1.options = ((atts.reverse.find? TaskP.isOptionsRec).map
          (fun r => (TaskP.parse_options_line r).toOption)).getD t0.options
      ∧ t1.observation_zones = t0.observation_zones ++ atts.filterMap (fun r =>
          if TaskP.isOptionsRec r then none
          else if TaskP.isObsZoneRec r then (TaskP.parse_obszone_line r).toOption
          else none)
      ∧ t1.points = t0.points ++ atts.filterMap (fun r =>
          if TaskP.isOptionsRec r ∨ TaskP.isObsZoneRec r then none
          else if TaskP.isPointRec r then
            (TaskP.parse_inline_waypoint_line_with_index r cm).toOption.map
              (fun p => (p.1 % 2 ^ 32, p.2))
          else none)) := by
  constructor
  · intro cm r rest hm
    show TaskP.parseTasksGo cm (rest.length + 1) (r :: rest) = _
    simp only [TaskP.parseTasksGo, hm, if_true]
    rfl
  · intro cm hrec atts rest t0 t1 hh hm hrest ht hfold
    obtain ⟨hd, hn, ho, hz, hp, _⟩ := foldAttach_fields cm atts t0 t1 hfold
    refine ⟨?_, hd, hn, ?_, hz, hp⟩
    · show TaskP.parseTasksGo cm ((hrec :: (atts ++ rest)).length) _ = _
      simp only [List.length_cons, TaskP.parseTasksGo, hh, if_neg, Bool.false_eq_true,
        not_false_eq_true]
      rw [ht]
      simp only [bind, Except.bind]
      rw [collectAtt_split cm atts t0 rest hm hrest, hfold]
      simp only [Except.map]
      rw [parseTasksGo_fuel cm (atts ++ rest).length rest (atts ++ rest).length
        (by simp) (by simp)]
      rcases hgo : TaskP.parseTasksGo cm rest.length rest with e | ts <;>
        simp [TaskP.parse_tasks, hgo, Except.map, pure, Except.pure]
    · rw [ho, foldl_if_last]

/-- Lemma: a digit byte is not a sign byte. -/
theorem isDigitByte_ne_sign {b : ℕ} (h : isDigitByte b = true) : b ≠ 43 ∧ b ≠ 45 := by
  simp only [isDigitByte, decide_eq_true_eq] at h
  omega

/-- Lemma: a digit byte is ASCII, hence not a UTF-8 continuation byte. -/
theorem isDigitByte_not_cont {b : ℕ} (h : isDigitByte b = true) :
    isContinuationByte b = false := by
  simp only [isDigitByte, decide_eq_true_eq] at h
  simp only [isContinuationByte, decide_eq_false_iff_not]
  omega

/-- Lemma: `takeWhile` keeps an all-digit list whole. -/
theorem takeWhile_digits {xs : List ℕ} (h : xs.all isDigitByte = true) :
    xs.takeWhile isDigitByte = xs := by
  induction xs with
  | nil => rfl
  | cons a t ih =>
    simp only [List.all_cons, Bool.and_eq_true] at h
    simp [List.takeWhile_cons, h.1, ih h.2]

/-- Lemma: `dropWhile` empties an all-digit list. -/
theorem dropWhile_digits {xs : List ℕ} (h : xs.all isDigitByte = true) :
    xs.dropWhile isDigitByte = [] := by
  induction xs with
  | nil => rfl
  | cons a t ih =>
    simp only [List.all_cons, Bool.and_eq_true] at h
    simp [List.dropWhile_cons, h.1, ih h.2]

/-- Lemma: `takeWhile` stops at the decimal point after the digit run. -/
theorem takeWhile_digits_sep {xs : List ℕ} (h : xs.all isDigitByte = true) (ys : List ℕ) :
    (xs ++ 46 :: ys).takeWhile isDigitByte = xs := by
  induction xs with
  | nil => simp [List.takeWhile_cons, isDigitByte]
  | cons a t ih =>
    simp only [List.all_cons, Bool.and_eq_true] at h
    simp [List.takeWhile_cons, h.1, ih h.2]

/-- Lemma: `dropWhile` lands on the decimal point after the digit run. -/
theorem dropWhile_digits_sep {xs : List ℕ} (h : xs.all isDigitByte = true) (ys : List ℕ) :
    (xs ++ 46 :: ys).dropWhile isDigitByte = 46 :: ys := by
  induction xs with
  | nil => simp [List.dropWhile_cons, isDigitByte]
  | cons a t ih =>
    simp only [List.all_cons, Bool.and_eq_true] at h
    simp [List.dropWhile_cons, h.1, ih h.2]

/-- Lemma: the positional value of digit bytes is bounded by the digit
count. -/
theorem digitsVal_foldl_lt :
    ∀ (t : List ℕ) (a : ℕ), t.all isDigitByte = true →
      t.foldl (fun x b => 10 * x + digitVal b) a < (a + 1) * 10 ^ t.length := by
  intro t
  induction t with
  | nil => intro a _; simp
  | cons b t ih =>
    intro a h
    simp only [List.all_cons, Bool.and_eq_true] at h
    have hb : digitVal b ≤ 9 := by
      simp only [isDigitByte, decide_eq_true_eq] at h
      simp only [digitVal]
      omega
    have := ih (10 * a + digitVal b) h.2
    calc (b :: t).foldl (fun x b => 10 * x + digitVal b) a
        = t.foldl (fun x b => 10 * x + digitVal b) (10 * a + digitVal b) := by
          simp [List.foldl_cons]
      _ < (10 * a + digitVal b + 1) * 10 ^ t.length := this
      _ ≤ ((a + 1) * 10) * 10 ^ t.length := by
          have : 10 * a + digitVal b + 1 ≤ (a + 1) * 10 := by omega
          exact Nat.mul_le_mul_right _ this
      _ = (a + 1) * 10 ^ (t.length + 1) := by ring
      _ = (a + 1) * 10 ^ (b :: t).length := by simp

/-- Lemma: the value of an all-digit byte run is below `10 ^ length`. -/
theorem digitsVal_lt {bs : List ℕ} (h : bs.all isDigitByte = true) :
    digitsVal bs < 10 ^ bs.length := by
  have := digitsVal_foldl_lt bs 0 h
  simpa [digitsVal] using this

/-- Lemma: the in-bounds unsigned parse of an all-digit run succeeds with its
positional value. -/
theorem parseUNat?_digits {bound : ℕ} {bs : List ℕ} (h : bs.all isDigitByte = true)
    (hne : bs ≠ []) (hb : digitsVal bs ≤ bound) :
    parseUNat? bound bs = some (digitsVal bs) := by
  obtain ⟨b, t, rfl⟩ := List.exists_cons_of_ne_nil hne
  have hd : isDigitByte b = true := by
    simp only [List.all_cons, Bool.and_eq_true] at h
    exact h.1
  have hb43 : b ≠ 43 := (isDigitByte_ne_sign hd).1
  simp [parseUNat?, hb43, h, hb]

/-- Lemma: the decimal parse of `digits ++ . ++ digits` (nonempty integer
part) succeeds with the positional value. -/
theorem parseDecimal_digits_dot {d1 d2 : List ℕ} (h1 : d1.all isDigitByte = true)
    (h2 : d2.all isDigitByte = true) (hne : d1 ≠ []) :
    parseDecimalBytes? (d1 ++ 46 :: d2)
      = some ((digitsVal d1 : ℚ) + (digitsVal d2 : ℚ) / ((10 ^ d2.length : ℕ) : ℚ)) := by
  obtain ⟨b, t, rfl⟩ := List.exists_cons_of_ne_nil hne
  have hd : isDigitByte b = true := by
    simp only [List.all_cons, Bool.and_eq_true] at h1
    exact h1.1
  obtain ⟨hb43, hb45⟩ := isDigitByte_ne_sign hd
  have htk : ((b :: t) ++ 46 :: d2).takeWhile isDigitByte = b :: t :=
    takeWhile_digits_sep h1 d2
  have hdr : ((b :: t) ++ 46 :: d2).dropWhile isDigitByte = 46 :: d2 :=
    dropWhile_digits_sep h1 d2
  simp only [List.cons_append] at htk hdr
  simp only [parseDecimalBytes?, List.cons_append, List.head?_cons, Option.some.injEq,
    hb43, if_false, hb45, htk, hdr, List.tail_cons, takeWhile_digits h2,
    dropWhile_digits h2, if_true]
  rw [if_neg (by simp)]
  simp [one_mul]

/-- Decomposition of a byte string of length at least 9 into five leading
bytes, a middle run and a final byte. -/
theorem exists_decomp9 (l : List ℕ) (h : 9 ≤ l.length) :
    ∃ b0 b1 b2 b3 b4 mid last,
      l = b0 :: b1 :: b2 :: b3 :: b4 :: (mid ++ [last]) ∧ 3 ≤ mid.length := by
  rcases l with _ | ⟨b0, l⟩; · simp at h
  rcases l with _ | ⟨b1, l⟩; · simp at h
  rcases l with _ | ⟨b2, l⟩; · simp at h
  rcases l with _ | ⟨b3, l⟩; · simp at h
  rcases l with _ | ⟨b4, l⟩; · simp at h
  have hlen : 4 ≤ l.length := by simp at h; omega
  have hne : l ≠ [] := by intro hl; rw [hl] at hlen; simp at hlen
  refine ⟨b0, b1, b2, b3, b4, l.dropLast, l.getLast hne, ?_, ?_⟩
  · rw [List.dropLast_append_getLast hne]
  · rw [List.length_dropLast]; omega

/-- Index and slice computations shared by the latitude-parser evaluation
lemmas, on a byte string of shape `b0 b1 b2 b3 b4 (mid ++ [hemi])`. -/
theorem lat_slices (b0 b1 b2 b3 b4 : ℕ) (mid : List ℕ) (hemi : ℕ) :
    (b0 :: b1 :: b2 :: b3 :: b4 :: (mid ++ [hemi])).get?
        ((b0 :: b1 :: b2 :: b3 :: b4 :: (mid ++ [hemi])).length - 1) = some hemi
    ∧ byteSlice? (b0 :: b1 :: b2 :: b3 :: b4 :: (mid ++ [hemi])) 0 4 = some [b0, b1, b2, b3]
    ∧ (b0 :: b1 :: b2 :: b3 :: b4 :: (mid ++ [hemi])).get? 4 = some b4
    ∧ byteSlice? (b0 :: b1 :: b2 :: b3 :: b4 :: (mid ++ [hemi])) 5
        ((b0 :: b1 :: b2 :: b3 :: b4 :: (mid ++ [hemi])).length - 1) = some mid := by
  have hlen : (b0 :: b1 :: b2 :: b3 :: b4 :: (mid ++ [hemi])).length = mid.length + 6 := by
    simp
  refine ⟨?_, ?_, rfl, ?_⟩
  · have hform : (b0 :: b1 :: b2 :: b3 :: b4 :: (mid ++ [hemi]))
        = ([b0, b1, b2, b3, b4] ++ mid) ++ [hemi] := by simp
    rw [hlen]
    rw [hform]
    have hidx : mid.length + 6 - 1 = ([b0, b1, b2, b3, b4] ++ mid).length := by
      simp
    rw [hidx, List.get?_concat_length]
  · unfold byteSlice?
    rw [if_pos ⟨by omega, by rw [hlen]; omega⟩]
    rfl
  · unfold byteSlice?
    rw [if_pos ⟨by rw [hlen]; omega, by omega⟩]
    rw [hlen]
    show some (List.take (mid.length + 6 - 1 - 5) (mid ++ [hemi])) = some mid
    have hidx : mid.length + 6 - 1 - 5 = mid.length := by omega
    rw [hidx, List.take_left]

/-- Evaluation of `parse_latitude` on a well-formed input: the decimal-degree
value is degrees plus minutes over 60, negated for the `S` hemisphere, with
the minutes-range check before the combined-range check. -/
theorem parse_latitude_wf (s : String) (b0 b1 b2 b3 : ℕ) (mid : List ℕ) (hemi : ℕ)
    (hdec : strBytes s = b0 :: b1 :: b2 :: b3 :: 46 :: (mid ++ [hemi]))
    (hmid3 : 3 ≤ mid.length)
    (hd : [b0, b1, b2, b3].all isDigitByte = true)
    (hmidd : mid.all isDigitByte = true)
    (hh : hemi = 78 ∨ hemi = 83) :
    Basics.parse_latitude s =
      (let minutes : ℚ := (digitsVal [b2, b3] : ℚ)
          + (digitsVal mid : ℚ) / ((10 ^ mid.length : ℕ) : ℚ)
       let dd : ℚ :=
         if hemi = 83 then -((digitsVal [b0, b1] : ℚ) + minutes / 60)
         else (digitsVal [b0, b1] : ℚ) + minutes / 60
       if ¬ (0 ≤ minutes ∧ minutes < 60) then
         some (.error ("Latitude minutes out of range: '" ++ ratDisplay minutes
           ++ "' (must be between 0 and 60)"))
       else if ¬ (-90 ≤ dd ∧ dd ≤ 90) then
         some (.error ("Latitude out of range: '" ++ ratDisplay dd
           ++ "' (must be between -90 and 90)"))
       else some (.ok dd)) := by
  obtain ⟨hlast, h04, hget4, h5⟩ := lat_slices b0 b1 b2 b3 46 mid hemi
  have hb2 : isDigitByte b2 = true := by
    simp only [List.all_cons, Bool.and_eq_true] at hd
    exact hd.2.2.1
  have hb01 : [b0, b1].all isDigitByte = true := by
    simp only [List.all_cons, Bool.and_eq_true] at hd ⊢
    exact ⟨hd.1, hd.2.1, rfl⟩
  have hb23 : [b2, b3].all isDigitByte = true := by
    simp only [List.all_cons, Bool.and_eq_true] at hd ⊢
    exact ⟨hd.2.2.1, hd.2.2.2⟩
  have hlen : (b0 :: b1 :: b2 :: b3 :: 46 :: (mid ++ [hemi])).length = mid.length + 6 := by
    simp
  have hlen9 : ¬ ((strBytes s).length < 9) := by
    rw [hdec, hlen]
    omega
  have hg2 : (b0 :: b1 :: b2 :: b3 :: 46 :: (mid ++ [hemi])).get? 2 = some b2 := rfl
  have hcb0 : isCharBoundary (b0 :: b1 :: b2 :: b3 :: 46 :: (mid ++ [hemi])) 0 = true := rfl
  have hcb2 : isCharBoundary (b0 :: b1 :: b2 :: b3 :: 46 :: (mid ++ [hemi])) 2 = true := by
    unfold isCharBoundary
    rw [hg2]
    simp [isDigitByte_not_cont hb2]
  have hs02 : strSlice? (b0 :: b1 :: b2 :: b3 :: 46 :: (mid ++ [hemi])) 0 2
      = some [b0, b1] := by
    unfold strSlice?
    rw [if_pos ⟨by omega, ⟨by rw [hlen]; omega, hcb0, hcb2⟩⟩]
    rfl
  have hcbl : isCharBoundary (b0 :: b1 :: b2 :: b3 :: 46 :: (mid ++ [hemi]))
      ((b0 :: b1 :: b2 :: b3 :: 46 :: (mid ++ [hemi])).length - 1) = true := by
    unfold isCharBoundary
    rw [hlast]
    have : isContinuationByte hemi = false := by
      rcases hh with h | h <;> simp [h, isContinuationByte]
    simp [this]
  have hs2l : strSlice? (b0 :: b1 :: b2 :: b3 :: 46 :: (mid ++ [hemi])) 2
      ((b0 :: b1 :: b2 :: b3 :: 46 :: (mid ++ [hemi])).length - 1)
      = some (b2 :: b3 :: 46 :: mid) := by
    unfold strSlice?
    rw [if_pos ⟨by rw [hlen]; omega, ⟨by omega, hcb2, hcbl⟩⟩]
    show some (List.take ((b0 :: b1 :: b2 :: b3 :: 46 :: (mid ++ [hemi])).length - 1 - 2)
      (b2 :: b3 :: 46 :: (mid ++ [hemi]))) = _
    have hidx : (b0 :: b1 :: b2 :: b3 :: 46 :: (mid ++ [hemi])).length - 1 - 2
        = mid.length + 3 := by
      rw [hlen]
      omega
    rw [hidx]
    rw [show mid.length + 3 = (mid.length + 2) + 1 from rfl, List.take_succ_cons,
      show mid.length + 2 = (mid.length + 1) + 1 from rfl, List.take_succ_cons,
      List.take_succ_cons, List.take_left]
  have hdeg : parseUNat? 255 [b0, b1] = some (digitsVal [b0, b1]) := by
    refine parseUNat?_digits hb01 (by simp) ?_
    have := digitsVal_lt hb01
    simp only [List.length_cons, List.length_nil] at this
    omega
  have hmin : parseDecimalBytes? (b2 :: b3 :: 46 :: mid)
      = some ((digitsVal [b2, b3] : ℚ) + (digitsVal mid : ℚ) / ((10 ^ mid.length : ℕ) : ℚ)) := by
    have := parseDecimal_digits_dot hb23 hmidd (by simp)
    simpa using this
  have hguard : ¬ (¬ ([b0, b1, b2, b3].all isDigitByte = true) ∨ (46 : ℕ) ≠ 46
      ∨ ¬ (mid.all isDigitByte = true) ∨ (hemi ≠ 78 ∧ hemi ≠ 83)) := by
    push_neg
    refine ⟨hd, rfl, hmidd, fun h78 => ?_⟩
    rcases hh with h | h
    · exact absurd h h78
    · exact h
  simp only [Basics.parse_latitude, hdec]
  rw [if_neg (by rw [hdec] at hlen9; exact hlen9)]
  simp only [hlast, h04, hget4, h5]
  rw [if_neg hguard]
  simp only [hs02, hs2l, hdeg, hmin]

/-- Evaluation of `parse_latitude` on an input of sufficient length that
violates the character-class guard. -/
theorem parse_latitude_badchar (s : String) (b0 b1 b2 b3 b4 : ℕ) (mid : List ℕ) (hemi : ℕ)
    (hdec : strBytes s = b0 :: b1 :: b2 :: b3 :: b4 :: (mid ++ [hemi]))
    (hmid3 : 3 ≤ mid.length)
    (hbad : ¬ ([b0, b1, b2, b3].all isDigitByte = true) ∨ b4 ≠ 46
      ∨ ¬ (mid.all isDigitByte = true) ∨ (hemi ≠ 78 ∧ hemi ≠ 83)) :
    Basics.parse_latitude s =
      some (.error ("Invalid latitude format: '" ++ s ++ "' (unexpected character)")) := by
  obtain ⟨hlast, h04, hget4, h5⟩ := lat_slices b0 b1 b2 b3 b4 mid hemi
  have hlen9 : ¬ ((strBytes s).length < 9) := by
    rw [hdec]
    simp only [List.length_cons, List.length_append, List.length_singleton]
    omega
  simp only [Basics.parse_latitude, hdec]
  rw [if_neg (by rw [hdec] at hlen9; exact hlen9)]
  simp only [hlast, h04, hget4, h5]
  rw [if_pos hbad]

/-- Index and slice computations for the longitude parser, on a byte string
of shape `b0 b1 b2 b3 b4 b5 (mid ++ [hemi])`. -/
theorem lon_slices (b0 b1 b2 b3 b4 b5 : ℕ) (mid : List ℕ) (hemi : ℕ) :
    (b0 :: b1 :: b2 :: b3 :: b4 :: b5 :: (mid ++ [hemi])).get?
        ((b0 :: b1 :: b2 :: b3 :: b4 :: b5 :: (mid ++ [hemi])).length - 1) = some hemi
    ∧ byteSlice? (b0 :: b1 :: b2 :: b3 :: b4 :: b5 :: (mid ++ [hemi])) 0 5
        = some [b0, b1, b2, b3, b4]
    ∧ (b0 :: b1 :: b2 :: b3 :: b4 :: b5 :: (mid ++ [hemi])).get? 5 = some b5
    ∧ byteSlice? (b0 :: b1 :: b2 :: b3 :: b4 :: b5 :: (mid ++ [hemi])) 6
        ((b0 :: b1 :: b2 :: b3 :: b4 :: b5 :: (mid ++ [hemi])).length - 1) = some mid := by
  have hlen : (b0 :: b1 :: b2 :: b3 :: b4 :: b5 :: (mid ++ [hemi])).length
      = mid.length + 7 := by simp
  refine ⟨?_, ?_, rfl, ?_⟩
  · have hform : (b0 :: b1 :: b2 :: b3 :: b4 :: b5 :: (mid ++ [hemi]))
        = ([b0, b1, b2, b3, b4, b5] ++ mid) ++ [hemi] := by simp
    rw [hlen, hform]
    have hidx : mid.length + 7 - 1 = ([b0, b1, b2, b3, b4, b5] ++ mid).length := by
      simp
    rw [hidx, List.get?_concat_length]
  · unfold byteSlice?
    rw [if_pos ⟨by omega, by rw [hlen]; omega⟩]
    rfl
  · unfold byteSlice?
    rw [if_pos ⟨by rw [hlen]; omega, by omega⟩]
    rw [hlen]
    show some (List.take (mid.length + 7 - 1 - 6) (mid ++ [hemi])) = some mid
    have hidx : mid.length + 7 - 1 - 6 = mid.length := by omega
    rw [hidx, List.take_left]

/-- Evaluation of `parse_longitude` on a well-formed input whose degree field
fits in a `u8` (the Rust code parses the three degree digits with
`parse::<u8>().unwrap()`, so degree values of 256 or more panic instead). -/
theorem parse_longitude_wf (s : String) (b0 b1 b2 b3 b4 : ℕ) (mid : List ℕ) (hemi : ℕ)
    (hdec : strBytes s = b0 :: b1 :: b2 :: b3 :: b4 :: 46 :: (mid ++ [hemi]))
    (hmid3 : 3 ≤ mid.length)
    (hd : [b0, b1, b2, b3, b4].all isDigitByte = true)
    (hmidd : mid.all isDigitByte = true)
    (hh : hemi = 69 ∨ hemi = 87)
    (hu8 : digitsVal [b0, b1, b2] ≤ 255) :
    Basics.parse_longitude s =
      (let minutes : ℚ := (digitsVal [b3, b4] : ℚ)
          + (digitsVal mid : ℚ) / ((10 ^ mid.length : ℕ) : ℚ)
       let dd : ℚ :=
         if hemi = 87 then -((digitsVal [b0, b1, b2] : ℚ) + minutes / 60)
         else (digitsVal [b0, b1, b2] : ℚ) + minutes / 60
       if ¬ (0 ≤ minutes ∧ minutes < 60) then
         some (.error ("Longitude minutes out of range: '" ++ ratDisplay minutes
           ++ "' (must be between 0 and 60)"))
       else if ¬ (-180 ≤ dd ∧ dd ≤ 180) then
         some (.error ("Longitude out of range: '" ++ ratDisplay dd
           ++ "' (must be between -180 and 180)"))
       else some (.ok dd)) := by
  obtain ⟨hlast, h05, hget5, h6⟩ := lon_slices b0 b1 b2 b3 b4 46 mid hemi
  have hb3 : isDigitByte b3 = true := by
    simp only [List.all_cons, Bool.and_eq_true] at hd
    exact hd.2.2.2.1
  have hb012 : [b0, b1, b2].all isDigitByte = true := by
    simp only [List.all_cons, Bool.and_eq_true] at hd ⊢
    exact ⟨hd.1, hd.2.1, hd.2.2.1, rfl⟩
  have hb34 : [b3, b4].all isDigitByte = true := by
    simp only [List.all_cons, Bool.and_eq_true] at hd ⊢
    exact ⟨hd.2.2.2.1, hd.2.2.2.2⟩
  have hlen : (b0 :: b1 :: b2 :: b3 :: b4 :: 46 :: (mid ++ [hemi])).length
      = mid.length + 7 := by simp
  have hlen10 : ¬ ((strBytes s).length < 10) := by
    rw [hdec, hlen]
    omega
  have hg3 : (b0 :: b1 :: b2 :: b3 :: b4 :: 46 :: (mid ++ [hemi])).get? 3 = some b3 := rfl
  have hcb0 : isCharBoundary (b0 :: b1 :: b2 :: b3 :: b4 :: 46 :: (mid ++ [hemi])) 0
      = true := rfl
  have hcb3 : isCharBoundary (b0 :: b1 :: b2 :: b3 :: b4 :: 46 :: (mid ++ [hemi])) 3
      = true := by
    unfold isCharBoundary
    rw [hg3]
    simp [isDigitByte_not_cont hb3]
  have hs03 : strSlice? (b0 :: b1 :: b2 :: b3 :: b4 :: 46 :: (mid ++ [hemi])) 0 3
      = some [b0, b1, b2] := by
    unfold strSlice?
    rw [if_pos ⟨by omega, ⟨by rw [hlen]; omega, hcb0, hcb3⟩⟩]
    rfl
  have hcbl : isCharBoundary (b0 :: b1 :: b2 :: b3 :: b4 :: 46 :: (mid ++ [hemi]))
      ((b0 :: b1 :: b2 :: b3 :: b4 :: 46 :: (mid ++ [hemi])).length - 1) = true := by
    unfold isCharBoundary
    rw [hlast]
    have : isContinuationByte hemi = false := by
      rcases hh with h | h <;> simp [h, isContinuationByte]
    simp [this]
  have hs3l : strSlice? (b0 :: b1 :: b2 :: b3 :: b4 :: 46 :: (mid ++ [hemi])) 3
      ((b0 :: b1 :: b2 :: b3 :: b4 :: 46 :: (mid ++ [hemi])).length - 1)
      = some (b3 :: b4 :: 46 :: mid) := by
    unfold strSlice?
    rw [if_pos ⟨by rw [hlen]; omega, ⟨by omega, hcb3, hcbl⟩⟩]
    show some (List.take ((b0 :: b1 :: b2 :: b3 :: b4 :: 46 :: (mid ++ [hemi])).length - 1 - 3)
      (b3 :: b4 :: 46 :: (mid ++ [hemi]))) = _
    have hidx : (b0 :: b1 :: b2 :: b3 :: b4 :: 46 :: (mid ++ [hemi])).length - 1 - 3
        = mid.length + 3 := by
      rw [hlen]
      omega
    rw [hidx]
    rw [show mid.length + 3 = (mid.length + 2) + 1 from rfl, List.take_succ_cons,
      show mid.length + 2 = (mid.length + 1) + 1 from rfl, List.take_succ_cons,
      List.take_succ_cons, List.take_left]
  have hdeg : parseUNat? 255 [b0, b1, b2] = some (digitsVal [b0, b1, b2]) :=
    parseUNat?_digits hb012 (by simp) hu8
  have hmin : parseDecimalBytes? (b3 :: b4 :: 46 :: mid)
      = some ((digitsVal [b3, b4] : ℚ) + (digitsVal mid : ℚ) / ((10 ^ mid.length : ℕ) : ℚ)) := by
    have := parseDecimal_digits_dot hb34 hmidd (by simp)
    simpa using this
  have hguard : ¬ (¬ ([b0, b1, b2, b3, b4].all isDigitByte = true) ∨ (46 : ℕ) ≠ 46
      ∨ ¬ (mid.all isDigitByte = true) ∨ (hemi ≠ 69 ∧ hemi ≠ 87)) := by
    push_neg
    refine ⟨hd, rfl, hmidd, fun h69 => ?_⟩
    rcases hh with h | h
    · exact absurd h h69
    · exact h
  simp only [Basics.parse_longitude, hdec]
  rw [if_neg (by rw [hdec] at hlen10; exact hlen10)]
  simp only [hlast, h05, hget5, h6]
  rw [if_neg hguard]
  simp only [hs03, hs3l, hdeg, hmin]

/-- Totality of the latitude parser: every input either hits the length
error, the character-class error, or reaches the numeric stage whose
substrings are guaranteed digit/point sequences. -/
theorem parse_latitude_total (s : String) : (Basics.parse_latitude s).isSome := by
  by_cases h9 : (strBytes s).length < 9
  · rw [parse_latitude_short s h9]
    rfl
  · push_neg at h9
    obtain ⟨b0, b1, b2, b3, b4, mid, hemi, hdec, hmid3⟩ := exists_decomp9 _ h9
    by_cases hwf : ([b0, b1, b2, b3].all isDigitByte = true) ∧ b4 = 46
        ∧ (mid.all isDigitByte = true) ∧ (hemi = 78 ∨ hemi = 83)
    · obtain ⟨h1, rfl, h3, h4⟩ := hwf
      rw [parse_latitude_wf s b0 b1 b2 b3 mid hemi hdec hmid3 h1 h3 h4]
      simp only
      repeat' split
      all_goals rfl
    · have hbad : ¬ ([b0, b1, b2, b3].all isDigitByte = true) ∨ b4 ≠ 46
          ∨ ¬ (mid.all isDigitByte = true) ∨ (hemi ≠ 78 ∧ hemi ≠ 83) := by
        by_contra hc
        push_neg at hc
        exact hwf ⟨hc.1, hc.2.1, hc.2.2.1, by tauto⟩
      rw [parse_latitude_badchar s b0 b1 b2 b3 b4 mid hemi hdec hmid3 hbad]
      rfl

/-- C10 (code bug): the no-panic claim fails for the longitude parser.  The
Rust code parses the THREE degree digits with `parse::<u8>().unwrap()`, so a
well-formed longitude whose degree value does not fit in a `u8` — such as
`"25600.000E"` — panics (modelled by `none`) instead of returning a `Result`;
the file's own property test `test_longitude_proptest` asserts exactly the
claimed totality.  The latitude parser, whose degree field has two digits, is
total as claimed. -/
theorem c10_totality :
    Basics.parse_longitude "25600.000E" = none
    ∧ (∀ s : String, (Basics.parse_latitude s).isSome) := by
  constructor
  · with_unfolding_all rfl
  · exact parse_latitude_total

/-- C6 counterexample: `"25600.000E"` is a well-formed longitude string
(every digit field individually valid, combined value 256 out of range), yet
the parser panics on the `u8` degree parse (modelled by `none`) instead of
rejecting it with the claimed range error. -/
theorem c6_counterexample :
    strBytes "25600.000E" = [50, 53, 54, 48, 48, 46, 48, 48, 48, 69]
    ∧ Basics.parse_longitude "25600.000E" = none
    ∧ Basics.parse_longitude "25600.000E"
        ≠ some (.error "Longitude out of range: '256' (must be between -180 and 180)") := by
  refine ⟨by with_unfolding_all decide, by with_unfolding_all rfl, ?_⟩
  rw [show Basics.parse_longitude "25600.000E" = none from by with_unfolding_all rfl]
  simp

/-- C6 (amended): for every well-formed coordinate string the parsed
decimal-degree value equals degrees + minutes/60, negated for hemisphere S
or W; minutes must lie in [0, 60), violations giving a minutes-range error
distinct from the combined range check; a combined value outside [−90, 90]
for latitude (or [−180, 180] for longitude) is rejected with its own range
error — for longitude, however, only while the three-digit degree field fits
in a `u8`: degree values of 256 and above panic in the `u8` unwrap before any
range check.  Examples: `"0000.000N"` ↦ 0, `"9000.000N"` ↦ 90,
`"9000.000S"` ↦ −90, `"9100.000N"` ↦ range error. -/
theorem c6_coordinate_value_semantics :
    (∀ (s : String) (b0 b1 b2 b3 : ℕ) (mid : List ℕ) (hemi : ℕ) (minutes dd : ℚ),
      strBytes s = b0 :: b1 :: b2 :: b3 :: 46 :: (mid ++ [hemi]) →
      3 ≤ mid.length →
      [b0, b1, b2, b3].all isDigitByte = true →
      mid.all isDigitByte = true →
      (hemi = 78 ∨ hemi = 83) →
      minutes = (digitsVal [b2, b3] : ℚ)
        + (digitsVal mid : ℚ) / ((10 ^ mid.length : ℕ) : ℚ) →
      dd = (if hemi = 83 then -((digitsVal [b0, b1] : ℚ) + minutes / 60)
            else (digitsVal [b0, b1] : ℚ) + minutes / 60) →
      (minutes < 60 → -90 ≤ dd → dd ≤ 90 →
        Basics.parse_latitude s = some (.ok dd))
      ∧ (60 ≤ minutes →
        Basics.parse_latitude s = some (.error ("Latitude minutes out of range: '"
          ++ ratDisplay minutes ++ "' (must be between 0 and 60)")))
      ∧ (minutes < 60 → ¬ (-90 ≤ dd ∧ dd ≤ 90) →
        Basics.parse_latitude s = some (.error ("Latitude out of range: '"
          ++ ratDisplay dd ++ "' (must be between -90 and 90)"))))
    ∧ (∀ (s : String) (b0 b1 b2 b3 b4 : ℕ) (mid : List ℕ) (hemi : ℕ) (minutes dd : ℚ),
      strBytes s = b0 :: b1 :: b2 :: b3 :: b4 :: 46 :: (mid ++ [hemi]) →
      3 ≤ mid.length →
      [b0, b1, b2, b3, b4].all isDigitByte = true →
      mid.all isDigitByte = true →
      (hemi = 69 ∨ hemi = 87) →
      digitsVal [b0, b1, b2] ≤ 255 →
      minutes = (digitsVal [b3, b4] : ℚ)
        + (digitsVal mid : ℚ) / ((10 ^ mid.length : ℕ) : ℚ) →
      dd = (if hemi = 87 then -((digitsVal [b0, b1, b2] : ℚ) + minutes / 60)
            else (digitsVal [b0, b1, b2] : ℚ) + minutes / 60) →
      (minutes < 60 → -180 ≤ dd → dd ≤ 180 →
        Basics.parse_longitude s = some (.ok dd))
      ∧ (60 ≤ minutes →
        Basics.parse_longitude s = some (.error ("Longitude minutes out of range: '"
          ++ ratDisplay minutes ++ "' (must be between 0 and 60)")))
      ∧ (minutes < 60 → ¬ (-180 ≤ dd ∧ dd ≤ 180) →
        Basics.parse_longitude s = some (.error ("Longitude out of range: '"
          ++ ratDisplay dd ++ "' (must be between -180 and 180)"))))
    ∧ Basics.parse_latitude "0000.000N" = some (.ok 0)
    ∧ Basics.parse_latitude "9000.000N" = some (.ok 90)
    ∧ Basics.parse_latitude "9000.000S" = some (.ok (-90))
    ∧ Basics.parse_latitude "9100.000N"
        = some (.error "Latitude out of range: '91' (must be between -90 and 90)")
    ∧ Basics.parse_latitude "5160.000N"
        = some (.error "Latitude minutes out of range: '60' (must be between 0 and 60)")
    ∧ "Latitude minutes out of range: '60' (must be between 0 and 60)"
        ≠ "Latitude out of range: '91' (must be between -90 and 90)"
    ∧ Basics.parse_longitude "18100.000E"
        = some (.error "Longitude out of range: '181' (must be between -180 and 180)") := by
  refine ⟨?_, ?_, by with_unfolding_all rfl, by with_unfolding_all rfl,
    by with_unfolding_all rfl, by with_unfolding_all rfl, by with_unfolding_all rfl,
    by decide, by with_unfolding_all rfl⟩
  · intro s b0 b1 b2 b3 mid hemi minutes dd hdec hmid3 hd hmidd hh hm hdd
    subst hm
    subst hdd
    rw [parse_latitude_wf s b0 b1 b2 b3 mid hemi hdec hmid3 hd hmidd hh]
    simp only
    have h0 : (0 : ℚ) ≤ (digitsVal [b2, b3] : ℚ)
        + (digitsVal mid : ℚ) / ((10 ^ mid.length : ℕ) : ℚ) := by positivity
    refine ⟨?_, ?_, ?_⟩
    · intro hlt hge hle
      rw [if_neg (by simp only [not_not]; exact ⟨h0, hlt⟩),
        if_neg (by simp only [not_not]; exact ⟨hge, hle⟩)]
    · intro hge
      rw [if_pos (fun hc => absurd hge (not_le.2 hc.2))]
    · intro hlt hnr
      rw [if_neg (by simp only [not_not]; exact ⟨h0, hlt⟩), if_pos hnr]
  · intro s b0 b1 b2 b3 b4 mid hemi minutes dd hdec hmid3 hd hmidd hh hu8 hm hdd
    subst hm
    subst hdd
    rw [parse_longitude_wf s b0 b1 b2 b3 b4 mid hemi hdec hmid3 hd hmidd hh hu8]
    simp only
    have h0 : (0 : ℚ) ≤ (digitsVal [b3, b4] : ℚ)
        + (digitsVal mid : ℚ) / ((10 ^ mid.length : ℕ) : ℚ) := by positivity
    refine ⟨?_, ?_, ?_⟩
    · intro hlt hge hle
      rw [if_neg (by simp only [not_not]; exact ⟨h0, hlt⟩),
        if_neg (by simp only [not_not]; exact ⟨hge, hle⟩)]
    · intro hge
      rw [if_pos (fun hc => absurd hge (not_le.2 hc.2))]
    · intro hlt hnr
      rw [if_neg (by simp only [not_not]; exact ⟨h0, hlt⟩), if_pos hnr]

/-- C6 witness: the latitude value semantics applied at `"5147.809N"`
(51 degrees, 47.809 minutes, northern hemisphere). -/
theorem c6_witness :
    Basics.parse_latitude "5147.809N" = some (.ok (3107809 / 60000)) := by
  have h := (c6_coordinate_value_semantics.1 "5147.809N" 53 49 52 55 [56, 48, 57] 78
    (47809 / 1000) (3107809 / 60000)
    (by with_unfolding_all decide) (by decide) (by decide) (by decide) (Or.inl rfl)
    (by rw [show digitsVal [52, 55] = 47 from by decide,
          show digitsVal [56, 48, 57] = 809 from by decide]
        norm_num)
    (by rw [if_neg (by decide), show digitsVal [53, 49] = 51 from by decide]
        norm_num)).1
  exact h (by norm_num) (by norm_num) (by norm_num)

/-- Slot update law of the header scan, `name` slot. -/
theorem colStep_name (st : ColSlots) (ih : ℕ × String) :
    (colStep st ih).name = if lowercase ih.2 = "name" then some ih.1 else st.name := by
  unfold colStep
  split <;> simp_all

/-- Slot update law, `code` slot. -/
theorem colStep_code (st : ColSlots) (ih : ℕ × String) :
    (colStep st ih).code = if lowercase ih.2 = "code" then some ih.1 else st.code := by
  unfold colStep
  split <;> simp_all

/-- Slot update law, `country` slot. -/
theorem colStep_country (st : ColSlots) (ih : ℕ × String) :
    (colStep st ih).country = if lowercase ih.2 = "country" then some ih.1 else st.country := by
  unfold colStep
  split <;> simp_all

/-- Slot update law, `lat` slot. -/
theorem colStep_lat (st : ColSlots) (ih : ℕ × String) :
    (colStep st ih).lat = if lowercase ih.2 = "lat" then some ih.1 else st.lat := by
  unfold colStep
  split <;> simp_all

/-- Slot update law, `lon` slot. -/
theorem colStep_lon (st : ColSlots) (ih : ℕ × String) :
    (colStep st ih).lon = if lowercase ih.2 = "lon" then some ih.1 else st.lon := by
  unfold colStep
  split <;> simp_all

/-- Slot update law, `elev` slot. -/
theorem colStep_elev (st : ColSlots) (ih : ℕ × String) :
    (colStep st ih).elev = if lowercase ih.2 = "elev" then some ih.1 else st.elev := by
  unfold colStep
  split <;> simp_all

/-- Slot update law, `style` slot. -/
theorem colStep_style (st : ColSlots) (ih : ℕ × String) :
    (colStep st ih).style = if lowercase ih.2 = "style" then some ih.1 else st.style := by
  unfold colStep
  split <;> simp_all

/-- Slot update law, `rwdir` slot. -/
theorem colStep_rwdir (st : ColSlots) (ih : ℕ × String) :
    (colStep st ih).rwdir = if lowercase ih.2 = "rwdir" then some ih.1 else st.rwdir := by
  unfold colStep
  split <;> simp_all

/-- Slot update law, `rwlen` slot. -/
theorem colStep_rwlen (st : ColSlots) (ih : ℕ × String) :
    (colStep st ih).rwlen = if lowercase ih.2 = "rwlen" then some ih.1 else st.rwlen := by
  unfold colStep
  split <;> simp_all

/-- Slot update law, `rwwidth` slot. -/
theorem colStep_rwwidth (st : ColSlots) (ih : ℕ × String) :
    (colStep st ih).rwwidth = if lowercase ih.2 = "rwwidth" then some ih.1 else st.rwwidth := by
  unfold colStep
  split <;> simp_all

/-- Slot update law, `freq` slot. -/
theorem colStep_freq (st : ColSlots) (ih : ℕ × String) :
    (colStep st ih).freq = if lowercase ih.2 = "freq" then some ih.1 else st.freq := by
  unfold colStep
  split <;> simp_all

/-- Slot update law, `desc` slot. -/
theorem colStep_desc (st : ColSlots) (ih : ℕ × String) :
    (colStep st ih).desc = if lowercase ih.2 = "desc" then some ih.1 else st.desc := by
  unfold colStep
  split <;> simp_all

/-- Slot update law, `userdata` slot. -/
theorem colStep_userdata (st : ColSlots) (ih : ℕ × String) :
    (colStep st ih).userdata = if lowercase ih.2 = "userdata" then some ih.1 else st.userdata := by
  unfold colStep
  split <;> simp_all

/-- Slot update law, `pics` slot. -/
theorem colStep_pics (st : ColSlots) (ih : ℕ × String) :
    (colStep st ih).pics = if lowercase ih.2 = "pics" then some ih.1 else st.pics := by
  unfold colStep
  split <;> simp_all

/-- The header scan's slot for a column name is the index of the LAST
case-insensitive match, falling back to the initial slot value. -/
theorem foldl_colStep_proj (π : ColSlots → Option ℕ) (nm : String)
    (htr : ∀ st ih, π (colStep st ih) = if lowercase ih.2 = nm then some ih.1 else π st) :
    ∀ (l : List (ℕ × String)) (st : ColSlots),
      π (l.foldl colStep st)
        = ((l.reverse.find? (fun ih => lowercase ih.2 == nm)).map Prod.fst).or (π st) := by
  intro l
  induction l with
  | nil => intro st; simp
  | cons a t ih =>
    intro st
    rw [List.foldl_cons, ih (colStep st a), htr st a, List.reverse_cons, List.find?_append]
    rcases hf : t.reverse.find? (fun ih => lowercase ih.2 == nm) with _ | r
    · simp only [hf, Option.none_or]
      by_cases hpa : lowercase a.2 = nm
      · simp [List.find?_cons, hpa, Option.or]
      · simp [List.find?_cons, hpa, Option.or]
    · simp only [hf]
      simp [Option.or]

/-- C3 witness: orphan-skip applied to a lone Options record, and the
attachment collection applied to a header followed by five interleaved
attachments (Options, ObsZone, a second Options that wins, Point, STARTS). -/
theorem c3_witness :
    TaskP.parse_tasks Fixtures.cm7 (Fixtures.c3Opts1 :: []) = TaskP.parse_tasks Fixtures.cm7 []
    ∧ TaskP.parse_tasks Fixtures.cm7 (Fixtures.c3Header ::
        ([Fixtures.c3Opts1, Fixtures.c3Zone, Fixtures.c3Opts2, Fixtures.c3Point,
          Fixtures.c3Starts] ++ []))
      = Except.map (fun ts => Fixtures.c3Task :: ts) (TaskP.parse_tasks Fixtures.cm7 []) :=
  ⟨c3_task_attachment_collection.1 Fixtures.cm7 Fixtures.c3Opts1 [] (by with_unfolding_all decide),
    (c3_task_attachment_collection.2 Fixtures.cm7 Fixtures.c3Header
      [Fixtures.c3Opts1, Fixtures.c3Zone, Fixtures.c3Opts2, Fixtures.c3Point, Fixtures.c3Starts]
      [] Fixtures.c3T0 Fixtures.c3Task
      (by with_unfolding_all decide)
      (by with_unfolding_all decide)
      (by intro r0 h0; simp at h0)
      (by with_unfolding_all rfl)
      (by with_unfolding_all rfl)).1⟩

/-- The `name` slot after the header scan is the last case-insensitive match. -/
theorem scan_name (headers : List String) :
    (headers.enum.foldl colStep ColSlots.init).name = slotFind headers "name" := by
  rw [foldl_colStep_proj ColSlots.name "name" colStep_name headers.enum ColSlots.init]
  simp [slotFind, ColSlots.init]

/-- The `code` slot after the header scan. -/
theorem scan_code (headers : List String) :
    (headers.enum.foldl colStep ColSlots.init).code = slotFind headers "code" := by
  rw [foldl_colStep_proj ColSlots.code "code" colStep_code headers.enum ColSlots.init]
  simp [slotFind, ColSlots.init]

/-- The `country` slot after the header scan. -/
theorem scan_country (headers : List String) :
    (headers.enum.foldl colStep ColSlots.init).country = slotFind headers "country" := by
  rw [foldl_colStep_proj ColSlots.country "country" colStep_country headers.enum ColSlots.init]
  simp [slotFind, ColSlots.init]

/-- The `lat` slot after the header scan. -/
theorem scan_lat (headers : List String) :
    (headers.enum.foldl colStep ColSlots.init).lat = slotFind headers "lat" := by
  rw [foldl_colStep_proj ColSlots.lat "lat" colStep_lat headers.enum ColSlots.init]
  simp [slotFind, ColSlots.init]

/-- The `lon` slot after the header scan. -/
theorem scan_lon (headers : List String) :
    (headers.enum.foldl colStep ColSlots.init).lon = slotFind headers "lon" := by
  rw [foldl_colStep_proj ColSlots.lon "lon" colStep_lon headers.enum ColSlots.init]
  simp [slotFind, ColSlots.init]

/-- The `elev` slot after the header scan. -/
theorem scan_elev (headers : List String) :
    (headers.enum.foldl colStep ColSlots.init).elev = slotFind headers "elev" := by
  rw [foldl_colStep_proj ColSlots.elev "elev" colStep_elev headers.enum ColSlots.init]
  simp [slotFind, ColSlots.init]

/-- The `style` slot after the header scan. -/
theorem scan_style (headers : List String) :
    (headers.enum.foldl colStep ColSlots.init).style = slotFind headers "style" := by
  rw [foldl_colStep_proj ColSlots.style "style" colStep_style headers.enum ColSlots.init]
  simp [slotFind, ColSlots.init]

/-- The `rwdir` slot after the header scan. -/
theorem scan_rwdir (headers : List String) :
    (headers.enum.foldl colStep ColSlots.init).rwdir = slotFind headers "rwdir" := by
  rw [foldl_colStep_proj ColSlots.rwdir "rwdir" colStep_rwdir headers.enum ColSlots.init]
  simp [slotFind, ColSlots.init]

/-- The `rwlen` slot after the header scan. -/
theorem scan_rwlen (headers : List String) :
    (headers.enum.foldl colStep ColSlots.init).rwlen = slotFind headers "rwlen" := by
  rw [foldl_colStep_proj ColSlots.rwlen "rwlen" colStep_rwlen headers.enum ColSlots.init]
  simp [slotFind, ColSlots.init]

/-- The `rwwidth` slot after the header scan. -/
theorem scan_rwwidth (headers : List String) :
    (headers.enum.foldl colStep ColSlots.init).rwwidth = slotFind headers "rwwidth" := by
  rw [foldl_colStep_proj ColSlots.rwwidth "rwwidth" colStep_rwwidth headers.enum ColSlots.init]
  simp [slotFind, ColSlots.init]

/-- The `freq` slot after the header scan. -/
theorem scan_freq (headers : List String) :
    (headers.enum.foldl colStep ColSlots.init).freq = slotFind headers "freq" := by
  rw [foldl_colStep_proj ColSlots.freq "freq" colStep_freq headers.enum ColSlots.init]
  simp [slotFind, ColSlots.init]

/-- The `desc` slot after the header scan. -/
theorem scan_desc (headers : List String) :
    (headers.enum.foldl colStep ColSlots.init).desc = slotFind headers "desc" := by
  rw [foldl_colStep_proj ColSlots.desc "desc" colStep_desc headers.enum ColSlots.init]
  simp [slotFind, ColSlots.init]

/-- The `userdata` slot after the header scan. -/
theorem scan_userdata (headers : List String) :
    (headers.enum.foldl colStep ColSlots.init).userdata = slotFind headers "userdata" := by
  rw [foldl_colStep_proj ColSlots.userdata "userdata" colStep_userdata headers.enum ColSlots.init]
  simp [slotFind, ColSlots.init]

/-- The `pics` slot after the header scan. -/
theorem scan_pics (headers : List String) :
    (headers.enum.foldl colStep ColSlots.init).pics = slotFind headers "pics" := by
  rw [foldl_colStep_proj ColSlots.pics "pics" colStep_pics headers.enum ColSlots.init]
  simp [slotFind, ColSlots.init]

/-- `build_column_map` fails on the `name` column first. -/
theorem bcm_err_name (headers : List String) (h : slotFind headers "name" = none) :
    build_column_map headers = .error "Missing required column: name" := by
  simp only [build_column_map]
  rw [scan_name headers, h]
  rfl

/-- `build_column_map` failure on the `code` column. -/
theorem bcm_err_code (headers : List String) (i1 : ℕ)
    (h1 : slotFind headers "name" = some i1) (h : slotFind headers "code" = none) :
    build_column_map headers = .error "Missing required column: code" := by
  simp only [build_column_map]
  rw [scan_name headers, h1, scan_code headers, h]
  rfl

/-- `build_column_map` failure on the `country` column. -/
theorem bcm_err_country (headers : List String) (i1 i2 : ℕ)
    (h1 : slotFind headers "name" = some i1) (h2 : slotFind headers "code" = some i2)
    (h : slotFind headers "country" = none) :
    build_column_map headers = .error "Missing required column: country" := by
  simp only [build_column_map]
  rw [scan_name headers, h1, scan_code headers, h2, scan_country headers, h]
  rfl

/-- `build_column_map` failure on the `lat` column. -/
theorem bcm_err_lat (headers : List String) (i1 i2 i3 : ℕ)
    (h1 : slotFind headers "name" = some i1) (h2 : slotFind headers "code" = some i2)
    (h3 : slotFind headers "country" = some i3) (h : slotFind headers "lat" = none) :
    build_column_map headers = .error "Missing required column: lat" := by
  simp only [build_column_map]
  rw [scan_name headers, h1, scan_code headers, h2, scan_country headers, h3,
    scan_lat headers, h]
  rfl

/-- `build_column_map` failure on the `lon` column. -/
theorem bcm_err_lon (headers : List String) (i1 i2 i3 i4 : ℕ)
    (h1 : slotFind headers "name" = some i1) (h2 : slotFind headers "code" = some i2)
    (h3 : slotFind headers "country" = some i3) (h4 : slotFind headers "lat" = some i4)
    (h : slotFind headers "lon" = none) :
    build_column_map headers = .error "Missing required column: lon" := by
  simp only [build_column_map]
  rw [scan_name headers, h1, scan_code headers, h2, scan_country headers, h3,
    scan_lat headers, h4, scan_lon headers, h]
  rfl

/-- `build_column_map` failure on the `elev` column. -/
theorem bcm_err_elev (headers : List String) (i1 i2 i3 i4 i5 : ℕ)
    (h1 : slotFind headers "name" = some i1) (h2 : slotFind headers "code" = some i2)
    (h3 : slotFind headers "country" = some i3) (h4 : slotFind headers "lat" = some i4)
    (h5 : slotFind headers "lon" = some i5) (h : slotFind headers "elev" = none) :
    build_column_map headers = .error "Missing required column: elev" := by
  simp only [build_column_map]
  rw [scan_name headers, h1, scan_code headers, h2, scan_country headers, h3,
    scan_lat headers, h4, scan_lon headers, h5, scan_elev headers, h]
  rfl

/-- `build_column_map` failure on the `style` column. -/
theorem bcm_err_style (headers : List String) (i1 i2 i3 i4 i5 i6 : ℕ)
    (h1 : slotFind headers "name" = some i1) (h2 : slotFind headers "code" = some i2)
    (h3 : slotFind headers "country" = some i3) (h4 : slotFind headers "lat" = some i4)
    (h5 : slotFind headers "lon" = some i5) (h6 : slotFind headers "elev" = some i6)
    (h : slotFind headers "style" = none) :
    build_column_map headers = .error "Missing required column: style" := by
  simp only [build_column_map]
  rw [scan_name headers, h1, scan_code headers, h2, scan_country headers, h3,
    scan_lat headers, h4, scan_lon headers, h5, scan_elev headers, h6,
    scan_style headers, h]
  rfl

/-- `build_column_map` success, expressed through the last-match slots. -/
theorem bcm_ok (headers : List String) (i1 i2 i3 i4 i5 i6 i7 : ℕ)
    (h1 : slotFind headers "name" = some i1) (h2 : slotFind headers "code" = some i2)
    (h3 : slotFind headers "country" = some i3) (h4 : slotFind headers "lat" = some i4)
    (h5 : slotFind headers "lon" = some i5) (h6 : slotFind headers "elev" = some i6)
    (h7 : slotFind headers "style" = some i7) :
    build_column_map headers = .ok ⟨i1, i2, i3, i4, i5, i6, i7,
      slotFind headers "rwdir", slotFind headers "rwlen", slotFind headers "rwwidth",
      slotFind headers "freq", slotFind headers "desc", slotFind headers "userdata",
      slotFind headers "pics"⟩ := by
  simp only [build_column_map]
  rw [scan_name headers, h1, scan_code headers, h2, scan_country headers, h3,
    scan_lat headers, h4, scan_lon headers, h5, scan_elev headers, h6,
    scan_style headers, h7, scan_rwdir headers, scan_rwlen headers,
    scan_rwwidth headers, scan_freq headers, scan_desc headers,
    scan_userdata headers, scan_pics headers]
  rfl

/-- A slot is found exactly when the name occurs among the lowercased headers. -/
theorem slotFind_isSome_iff (headers : List String) (nm : String) :
    (slotFind headers nm).isSome = true ↔ nm ∈ headers.map lowercase := by
  have hiff : (headers.enum.reverse.find? (fun ih => lowercase ih.2 == nm)).isSome = true
      ↔ nm ∈ headers.map lowercase := by
    rw [List.find?_isSome]
    constructor
    · rintro ⟨x, hx, hpx⟩
      have hx' := List.mem_enum_iff_get?.1 (List.mem_reverse.1 hx)
      exact List.mem_map.2 ⟨x.2, List.get?_mem hx', by simpa using hpx⟩
    · intro h
      rcases List.mem_map.1 h with ⟨c, hc, rfl⟩
      rcases List.mem_iff_get?.1 hc with ⟨i, hi⟩
      exact ⟨(i, c), List.mem_reverse.2 (List.mem_enum_iff_get?.2 (by simpa using hi)),
        by simp⟩
  have hsame : (slotFind headers nm).isSome
      = (headers.enum.reverse.find? (fun ih => lowercase ih.2 == nm)).isSome := by
    unfold slotFind
    rcases hf : headers.enum.reverse.find? (fun ih => lowercase ih.2 == nm) with _ | p <;>
      rw [hf] <;> rfl
  rw [hsame]
  exact hiff

/-- Building the column map succeeds exactly when the seven mandatory names
occur among the lowercased headers. -/
theorem build_column_map_ok_iff (headers : List String) :
    (∃ cm, build_column_map headers = .ok cm)
      ↔ ∀ c ∈ mandatoryNames, c ∈ headers.map lowercase := by
  constructor
  · rintro ⟨cm, hcm⟩
    rcases e1 : slotFind headers "name" with _ | i1
    · rw [bcm_err_name headers e1] at hcm; exact absurd hcm (by simp)
    rcases e2 : slotFind headers "code" with _ | i2
    · rw [bcm_err_code headers i1 e1 e2] at hcm; exact absurd hcm (by simp)
    rcases e3 : slotFind headers "country" with _ | i3
    · rw [bcm_err_country headers i1 i2 e1 e2 e3] at hcm; exact absurd hcm (by simp)
    rcases e4 : slotFind headers "lat" with _ | i4
    · rw [bcm_err_lat headers i1 i2 i3 e1 e2 e3 e4] at hcm; exact absurd hcm (by simp)
    rcases e5 : slotFind headers "lon" with _ | i5
    · rw [bcm_err_lon headers i1 i2 i3 i4 e1 e2 e3 e4 e5] at hcm
      exact absurd hcm (by simp)
    rcases e6 : slotFind headers "elev" with _ | i6
    · rw [bcm_err_elev headers i1 i2 i3 i4 i5 e1 e2 e3 e4 e5 e6] at hcm
      exact absurd hcm (by simp)
    rcases e7 : slotFind headers "style" with _ | i7
    · rw [bcm_err_style headers i1 i2 i3 i4 i5 i6 e1 e2 e3 e4 e5 e6 e7] at hcm
      exact absurd hcm (by simp)
    intro c hc
    rw [← slotFind_isSome_iff]
    simp only [mandatoryNames, List.mem_cons, List.not_mem_nil, or_false] at hc
    rcases hc with rfl | rfl | rfl | rfl | rfl | rfl | rfl
    · rw [e1]; rfl
    · rw [e2]; rfl
    · rw [e3]; rfl
    · rw [e4]; rfl
    · rw [e5]; rfl
    · rw [e6]; rfl
    · rw [e7]; rfl
  · intro h
    have hs : ∀ c ∈ mandatoryNames, ∃ i, slotFind headers c = some i := by
      intro c hc
      exact Option.isSome_iff_exists.1 ((slotFind_isSome_iff headers c).2 (h c hc))
    obtain ⟨i1, e1⟩ := hs "name" (by simp [mandatoryNames])
    obtain ⟨i2, e2⟩ := hs "code" (by simp [mandatoryNames])
    obtain ⟨i3, e3⟩ := hs "country" (by simp [mandatoryNames])
    obtain ⟨i4, e4⟩ := hs "lat" (by simp [mandatoryNames])
    obtain ⟨i5, e5⟩ := hs "lon" (by simp [mandatoryNames])
    obtain ⟨i6, e6⟩ := hs "elev" (by simp [mandatoryNames])
    obtain ⟨i7, e7⟩ := hs "style" (by simp [mandatoryNames])
    exact ⟨_, bcm_ok headers i1 i2 i3 i4 i5 i6 i7 e1 e2 e3 e4 e5 e6 e7⟩

/-- A failed column-map build names a missing mandatory column. -/
theorem build_column_map_error_char (headers : List String) (e : String)
    (h : build_column_map headers = .error e) :
    ∃ c ∈ mandatoryNames,
      e = "Missing required column: " ++ c ∧ c ∉ headers.map lowercase := by
  have hmem : ∀ nm, slotFind headers nm = none → nm ∉ headers.map lowercase := by
    intro nm h0 hm
    have h1 := (slotFind_isSome_iff headers nm).2 hm
    rw [h0] at h1
    exact absurd h1 (by simp)
  rcases e1 : slotFind headers "name" with _ | i1
  · rw [bcm_err_name headers e1] at h
    injection h with h'
    exact ⟨"name", by simp [mandatoryNames], by rw [← h']; rfl, hmem _ e1⟩
  rcases e2 : slotFind headers "code" with _ | i2
  · rw [bcm_err_code headers i1 e1 e2] at h
    injection h with h'
    exact ⟨"code", by simp [mandatoryNames], by rw [← h']; rfl, hmem _ e2⟩
  rcases e3 : slotFind headers "country" with _ | i3
  · rw [bcm_err_country headers i1 i2 e1 e2 e3] at h
    injection h with h'
    exact ⟨"country", by simp [mandatoryNames], by rw [← h']; rfl, hmem _ e3⟩
  rcases e4 : slotFind headers "lat" with _ | i4
  · rw [bcm_err_lat headers i1 i2 i3 e1 e2 e3 e4] at h
    injection h with h'
    exact ⟨"lat", by simp [mandatoryNames], by rw [← h']; rfl, hmem _ e4⟩
  rcases e5 : slotFind headers "lon" with _ | i5
  · rw [bcm_err_lon headers i1 i2 i3 i4 e1 e2 e3 e4 e5] at h
    injection h with h'
    exact ⟨"lon", by simp [mandatoryNames], by rw [← h']; rfl, hmem _ e5⟩
  rcases e6 : slotFind headers "elev" with _ | i6
  · rw [bcm_err_elev headers i1 i2 i3 i4 i5 e1 e2 e3 e4 e5 e6] at h
    injection h with h'
    exact ⟨"elev", by simp [mandatoryNames], by rw [← h']; rfl, hmem _ e6⟩
  rcases e7 : slotFind headers "style" with _ | i7
  · rw [bcm_err_style headers i1 i2 i3 i4 i5 i6 e1 e2 e3 e4 e5 e6 e7] at h
    injection h with h'
    exact ⟨"style", by simp [mandatoryNames], by rw [← h']; rfl, hmem _ e7⟩
  rw [bcm_ok headers i1 i2 i3 i4 i5 i6 i7 e1 e2 e3 e4 e5 e6 e7] at h
  exact absurd h (by simp)

/-- The canonical header names are already lowercase. -/
theorem canonical_lower : ∀ c ∈ canonicalHeaders, lowercase c = c := by
  decide

/-- The canonical header names are distinct. -/
theorem canonical_nodup : canonicalHeaders.Nodup := by
  decide

/-- A zipped pair occurs at a common index of the two lists. -/
theorem mem_zip_exists_idx {α β : Type} {a : α} {b : β} :
    ∀ {l1 : List α} {l2 : List β}, (a, b) ∈ l1.zip l2 →
      ∃ i, l1.get? i = some a ∧ l2.get? i = some b := by
  intro l1
  induction l1 with
  | nil => intro l2 h; simp at h
  | cons x t ih =>
    intro l2 h
    cases l2 with
    | nil => simp at h
    | cons y t2 =>
      rw [List.zip_cons_cons] at h
      rcases List.mem_cons.1 h with h0 | h0
      · injection h0 with ha hb
        exact ⟨0, by rw [ha]; rfl, by rw [hb]; rfl⟩
      · rcases ih h0 with ⟨i, hi1, hi2⟩
        exact ⟨i + 1, by simpa using hi1, by simpa using hi2⟩

/-- get? of a zip, componentwise. -/
theorem get?_zip {α β : Type} :
    ∀ (l1 : List α) (l2 : List β) (i : ℕ),
      (l1.zip l2).get? i = (l1.get? i).bind (fun a => (l2.get? i).map (fun b => (a, b))) := by
  intro l1
  induction l1 with
  | nil => intro l2 i; cases i <;> simp
  | cons x t ih =>
    intro l2 i
    cases l2 with
    | nil => cases i <;> simp
    | cons y t2 =>
      cases i with
      | zero => simp
      | succ n => simpa using ih t2 n

/-- For a header row that permutes the canonical zip, the slot found for a
canonical name addresses a value column holding the canonical value. -/
theorem slot_lookup (pairs : List (String × String)) (vals : List String)
    (hperm : pairs.Perm (canonicalHeaders.zip vals))
    (k : ℕ) (nm v : String)
    (hk : canonicalHeaders.get? k = some nm) (hv : vals.get? k = some v) :
    ∃ j, slotFind (pairs.map Prod.fst) nm = some j
      ∧ (pairs.map Prod.snd).get? j = some v := by
  have hnmlow : lowercase nm = nm := canonical_lower nm (List.get?_mem hk)
  have hzipget : (canonicalHeaders.zip vals).get? k = some (nm, v) := by
    rw [get?_zip, hk, hv]
    rfl
  have hmempairs : (nm, v) ∈ pairs := hperm.mem_iff.2 (List.get?_mem hzipget)
  rcases List.mem_iff_get?.1 hmempairs with ⟨j0, hj0⟩
  have hhdr0 : (pairs.map Prod.fst).get? j0 = some nm := by
    rw [List.get?_map, hj0]
    rfl
  have hsome : ((pairs.map Prod.fst).enum.reverse.find?
      (fun ih => lowercase ih.2 == nm)).isSome = true := by
    rw [List.find?_isSome]
    exact ⟨(j0, nm), List.mem_reverse.2 (List.mem_enum_iff_get?.2 (by simpa using hhdr0)),
      by simp [hnmlow]⟩
  rcases hf : (pairs.map Prod.fst).enum.reverse.find? (fun ih => lowercase ih.2 == nm)
    with _ | q
  · rw [hf] at hsome
    exact absurd hsome (by simp)
  have hqmem := List.mem_enum_iff_get?.1 (List.mem_reverse.1 (List.mem_of_find?_eq_some hf))
  have hqp : lowercase q.2 = nm := by simpa using List.find?_some hf
  have hq1 : (pairs.map Prod.fst).get? q.1 = some q.2 := hqmem
  rw [List.get?_map] at hq1
  rcases Option.map_eq_some'.1 hq1 with ⟨p, hp, hp1⟩
  have hpmem : p ∈ canonicalHeaders.zip vals := hperm.mem_iff.1 (List.get?_mem hp)
  rcases mem_zip_exists_idx (a := p.1) (b := p.2) hpmem with ⟨i, hci, hvi⟩
  have hlp : lowercase p.1 = p.1 := canonical_lower p.1 (List.get?_mem hci)
  have hp1nm : p.1 = nm := by rw [← hlp, hp1, hqp]
  obtain ⟨hlt, _⟩ := List.get?_eq_some.1 hci
  have hik : i = k := List.get?_inj hlt canonical_nodup (by rw [hci, hp1nm, hk])
  have hp2v : p.2 = v := by
    rw [hik, hv] at hvi
    injection hvi with h0
    exact h0.symm
  refine ⟨q.1, ?_, ?_⟩
  · unfold slotFind
    rw [hf]
    rfl
  · rw [List.get?_map, hp]
    simp [hp2v]

/-- `parse_waypoint` depends on the record only through the fourteen
column-map lookups. -/
theorem parse_waypoint_congr (cm cm' : ColumnMap) (r r' : Record)
    (h1 : recGet? r cm.name = recGet? r' cm'.name)
    (h2 : recGet? r cm.code = recGet? r' cm'.code)
    (h3 : recGet? r cm.country = recGet? r' cm'.country)
    (h4 : recGet? r cm.lat = recGet? r' cm'.lat)
    (h5 : recGet? r cm.lon = recGet? r' cm'.lon)
    (h6 : recGet? r cm.elev = recGet? r' cm'.elev)
    (h7 : recGet? r cm.style = recGet? r' cm'.style)
    (h8 : cm.rwdir.bind (recGet? r) = cm'.rwdir.bind (recGet? r'))
    (h9 : cm.rwlen.bind (recGet? r) = cm'.rwlen.bind (recGet? r'))
    (h10 : cm.rwwidth.bind (recGet? r) = cm'.rwwidth.bind (recGet? r'))
    (h11 : cm.freq.bind (recGet? r) = cm'.freq.bind (recGet? r'))
    (h12 : cm.desc.bind (recGet? r) = cm'.desc.bind (recGet? r'))
    (h13 : cm.userdata.bind (recGet? r) = cm'.userdata.bind (recGet? r'))
    (h14 : cm.pics.bind (recGet? r) = cm'.pics.bind (recGet? r')) :
    WaypointP.parse_waypoint cm r = WaypointP.parse_waypoint cm' r' := by
  unfold WaypointP.parse_waypoint
  rw [h1, h2, h3, h4, h5, h6, h7, h8, h9, h10, h11, h12, h13, h14]

/-- A header row permuting the canonical zip builds a column map and parses
the permuted values exactly as the canonical order parses the canonical
values. -/
theorem perm_parse_eq (pairs : List (String × String)) (vals : List String)
    (hlen : vals.length = 14) (hperm : pairs.Perm (canonicalHeaders.zip vals)) :
    ∃ cmP, build_column_map (pairs.map Prod.fst) = .ok cmP
      ∧ WaypointP.parse_waypoint cmP (pairs.map Prod.snd)
          = WaypointP.parse_waypoint cmCanonical vals := by
  obtain ⟨w0, hw0⟩ : ∃ v, vals.get? 0 = some v := ⟨_, List.get?_eq_get (by omega)⟩
  obtain ⟨w1, hw1⟩ : ∃ v, vals.get? 1 = some v := ⟨_, List.get?_eq_get (by omega)⟩
  obtain ⟨w2, hw2⟩ : ∃ v, vals.get? 2 = some v := ⟨_, List.get?_eq_get (by omega)⟩
  obtain ⟨w3, hw3⟩ : ∃ v, vals.get? 3 = some v := ⟨_, List.get?_eq_get (by omega)⟩
  obtain ⟨w4, hw4⟩ : ∃ v, vals.get? 4 = some v := ⟨_, List.get?_eq_get (by omega)⟩
  obtain ⟨w5, hw5⟩ : ∃ v, vals.get? 5 = some v := ⟨_, List.get?_eq_get (by omega)⟩
  obtain ⟨w6, hw6⟩ : ∃ v, vals.get? 6 = some v := ⟨_, List.get?_eq_get (by omega)⟩
  obtain ⟨w7, hw7⟩ : ∃ v, vals.get? 7 = some v := ⟨_, List.get?_eq_get (by omega)⟩
  obtain ⟨w8, hw8⟩ : ∃ v, vals.get? 8 = some v := ⟨_, List.get?_eq_get (by omega)⟩
  obtain ⟨w9, hw9⟩ : ∃ v, vals.get? 9 = some v := ⟨_, List.get?_eq_get (by omega)⟩
  obtain ⟨w10, hw10⟩ : ∃ v, vals.get? 10 = some v := ⟨_, List.get?_eq_get (by omega)⟩
  obtain ⟨w11, hw11⟩ : ∃ v, vals.get? 11 = some v := ⟨_, List.get?_eq_get (by omega)⟩
  obtain ⟨w12, hw12⟩ : ∃ v, vals.get? 12 = some v := ⟨_, List.get?_eq_get (by omega)⟩
  obtain ⟨w13, hw13⟩ : ∃ v, vals.get? 13 = some v := ⟨_, List.get?_eq_get (by omega)⟩
  obtain ⟨j0, hs0, hg0⟩ := slot_lookup pairs vals hperm 0 "name" w0 rfl hw0
  obtain ⟨j1, hs1, hg1⟩ := slot_lookup pairs vals hperm 1 "code" w1 rfl hw1
  obtain ⟨j2, hs2, hg2⟩ := slot_lookup pairs vals hperm 2 "country" w2 rfl hw2
  obtain ⟨j3, hs3, hg3⟩ := slot_lookup pairs vals hperm 3 "lat" w3 rfl hw3
  obtain ⟨j4, hs4, hg4⟩ := slot_lookup pairs vals hperm 4 "lon" w4 rfl hw4
  obtain ⟨j5, hs5, hg5⟩ := slot_lookup pairs vals hperm 5 "elev" w5 rfl hw5
  obtain ⟨j6, hs6, hg6⟩ := slot_lookup pairs vals hperm 6 "style" w6 rfl hw6
  obtain ⟨j7, hs7, hg7⟩ := slot_lookup pairs vals hperm 7 "rwdir" w7 rfl hw7
  obtain ⟨j8, hs8, hg8⟩ := slot_lookup pairs vals hperm 8 "rwlen" w8 rfl hw8
  obtain ⟨j9, hs9, hg9⟩ := slot_lookup pairs vals hperm 9 "rwwidth" w9 rfl hw9
  obtain ⟨j10, hs10, hg10⟩ := slot_lookup pairs vals hperm 10 "freq" w10 rfl hw10
  obtain ⟨j11, hs11, hg11⟩ := slot_lookup pairs vals hperm 11 "desc" w11 rfl hw11
  obtain ⟨j12, hs12, hg12⟩ := slot_lookup pairs vals hperm 12 "userdata" w12 rfl hw12
  obtain ⟨j13, hs13, hg13⟩ := slot_lookup pairs vals hperm 13 "pics" w13 rfl hw13
  refine ⟨⟨j0, j1, j2, j3, j4, j5, j6, some j7, some j8, some j9, some j10,
    some j11, some j12, some j13⟩, ?_, ?_⟩
  · rw [bcm_ok (pairs.map Prod.fst) j0 j1 j2 j3 j4 j5 j6 hs0 hs1 hs2 hs3 hs4 hs5 hs6,
      hs7, hs8, hs9, hs10, hs11, hs12, hs13]
  · exact parse_waypoint_congr _ _ _ _
      (hg0.trans hw0.symm) (hg1.trans hw1.symm) (hg2.trans hw2.symm)
      (hg3.trans hw3.symm) (hg4.trans hw4.symm) (hg5.trans hw5.symm)
      (hg6.trans hw6.symm) (hg7.trans hw7.symm) (hg8.trans hw8.symm)
      (hg9.trans hw9.symm) (hg10.trans hw10.symm) (hg11.trans hw11.symm)
      (hg12.trans hw12.symm) (hg13.trans hw13.symm)

/-- **C9** (column map construction): the column map built from the header
row matches column names case-insensitively and independently of their
order — construction succeeds exactly when all seven mandatory names
(name, code, country, lat, lon, elev, style) occur among the lowercased
headers; a failure reports "Missing required column: " followed by a
mandatory name that is indeed absent; and a header row that is a
permutation of the canonical column order builds a column map under which
the permuted row parses to exactly the same waypoint as the canonical
row under the canonical column map. -/
theorem c9_column_map_construction (headers : List String)
    (pairs : List (String × String)) (vals : List String) :
    ((∃ cm, build_column_map headers = .ok cm)
        ↔ ∀ c ∈ mandatoryNames, c ∈ headers.map lowercase)
    ∧ (∀ e, build_column_map headers = .error e →
        ∃ c ∈ mandatoryNames,
          e = "Missing required column: " ++ c ∧ c ∉ headers.map lowercase)
    ∧ (vals.length = 14 → pairs.Perm (canonicalHeaders.zip vals) →
        build_column_map canonicalHeaders = .ok cmCanonical
        ∧ ∃ cmP, build_column_map (pairs.map Prod.fst) = .ok cmP
            ∧ WaypointP.parse_waypoint cmP (pairs.map Prod.snd)
                = WaypointP.parse_waypoint cmCanonical vals) :=
  ⟨build_column_map_ok_iff headers,
    build_column_map_error_char headers,
    fun hlen hperm => ⟨by with_unfolding_all rfl, perm_parse_eq pairs vals hlen hperm⟩⟩

/-- C9 witness: the spec's permuted header order `lat,lon,elev,name,code,
country,style,...` with a concrete row builds a column map and parses
identically to the canonical order. -/
theorem c9_witness :
    c9Vals.length = 14
    ∧ c9Pairs.Perm (canonicalHeaders.zip c9Vals)
    ∧ build_column_map canonicalHeaders = .ok cmCanonical
    ∧ ∃ cmP, build_column_map (c9Pairs.map Prod.fst) = .ok cmP
        ∧ WaypointP.parse_waypoint cmP (c9Pairs.map Prod.snd)
            = WaypointP.parse_waypoint cmCanonical c9Vals :=
  ⟨by with_unfolding_all decide, by with_unfolding_all decide,
    ((c9_column_map_construction [] c9Pairs c9Vals).2.2 (by with_unfolding_all decide)
      (by with_unfolding_all decide)).1,
    ((c9_column_map_construction [] c9Pairs c9Vals).2.2 (by with_unfolding_all decide)
      (by with_unfolding_all decide)).2⟩

end SeeyouCup
